import Mathlib

/-!
Verification of the parsing / formatting / feature-assembly core of the
sky_view weather application (`sky_view/functionality.py`).

The embedding models Python dictionaries as insertion-ordered association
lists with unique keys, Python numbers as exact rationals, and the two
HTTP endpoints as response oracles supplied to `get_weather_data` as
arguments.  Where a specific IEEE-754 double matters (the literal `5.55`),
its exact rational value is used.
-/

namespace SkyView

/-- A Python value stored in the weather dictionaries: a number
(modelled as an exact rational) or a string. -/
inductive Val where
  | num (q : ℚ)
  | str (s : String)
deriving DecidableEq

/-- A Python `dict` with string keys: an insertion-ordered association
list (the code only ever produces lists with pairwise-distinct keys). -/
abbrev Dict := List (String × Val)

/-- The keys of a dictionary, in insertion order. -/
def dictKeys (d : Dict) : List String := d.map Prod.fst

/-- `d[k]`: the value at the first occurrence of `k`, if any. -/
def dictGet (d : Dict) (k : String) : Option Val :=
  match d with
  | [] => none
  | p :: rest => if p.1 = k then some p.2 else dictGet rest k

/-- `d[k] = v`: replace the value at the first occurrence of `k`, or
append `(k, v)` when `k` is absent (Python dict assignment keeps the
position of an existing key and appends a new one). -/
def dictSet (d : Dict) (k : String) (v : Val) : Dict :=
  match d with
  | [] => [(k, v)]
  | p :: rest => if p.1 = k then (k, v) :: rest else p :: dictSet rest k v

/-- `d.update(kvs)`: assign each pair in order (Python `dict.update`
with a dict literal evaluates the literal first, then assigns its
entries in insertion order). -/
def dictUpdate (d : Dict) (kvs : List (String × Val)) : Dict :=
  kvs.foldl (fun acc kv => dictSet acc kv.1 kv.2) d

/-- `d[k]` read as a number; `none` when the key is absent or holds a
string (Python would raise `KeyError` / `TypeError` there). -/
def getNum (d : Dict) (k : String) : Option ℚ :=
  match dictGet d k with
  | some (Val.num q) => some q
  | _ => none

/-- `del d[k]` on a present key: drop the entry. -/
def dictDel (d : Dict) (k : String) : Dict :=
  d.filter (fun p => p.1 ≠ k)

/-- Left-pad a numeral string with zeros to the given width. -/
def padZeros (s : String) (w : ℕ) : String :=
  String.mk (List.replicate (w - s.length) '0') ++ s

/-- Python `f"\x7bx:.pf\x7d"` on an exact rational value: fixed-point
decimal with `p` digits after the point, correctly rounded with ties to
even (the rounding CPython performs when formatting a binary float); a
negative value keeps its sign even when it rounds to zero.  `|q| 10^p`
is `(natAbs q.num * 10^p) / q.den`, computed on the numerator and
denominator directly; the tie test compares twice the remainder with
the denominator. -/
def formatFixed (q : ℚ) (p : ℕ) : String :=
  let sign := if q.num < 0 then "-" else ""
  let m : ℕ := q.num.natAbs * 10 ^ p
  let fl : ℕ := m / q.den
  let rem : ℕ := m % q.den
  let n : ℕ :=
    if 2 * rem < q.den then fl
    else if q.den < 2 * rem then fl + 1
    else if fl % 2 = 0 then fl else fl + 1
  let ipart := n / 10 ^ p
  let fpart := n % 10 ^ p
  if p = 0 then sign ++ toString ipart
  else sign ++ toString ipart ++ "." ++ padZeros (toString fpart) p

/-- Python `f"\x7bx:.0%\x7d"`: multiply by 100, format with no decimals,
append `%` (the float multiplication is abstracted as exact; `q * 100`
is written `mkRat (q.num * 100) q.den` to stay kernel-computable). -/
def formatPercent0 (q : ℚ) : String :=
  formatFixed (mkRat (q.num * 100) q.den) 0 ++ "%"

/-- The numeric value of a decimal digit character, `none` otherwise. -/
def digitVal (c : Char) : Option ℕ :=
  if c.isDigit then some (c.toNat - 48) else none

/-- `%Y` in CPython `strptime`: exactly four decimal digits. -/
def parseY : List Char → Option (ℕ × List Char)
  | a :: b :: c :: d :: rest =>
    match digitVal a, digitVal b, digitVal c, digitVal d with
    | some x, some y, some z, some w => some (1000 * x + 100 * y + 10 * z + w, rest)
    | _, _, _, _ => none
  | _ => none

/-- `%m` in CPython `strptime`, regex `1[0-2]|0[1-9]|[1-9]`: the
candidate matches in the engine's backtracking preference order. -/
def mCands : List Char → List (ℕ × List Char)
  | c1 :: c2 :: rest =>
    (if c1 = '1' ∧ '0' ≤ c2 ∧ c2 ≤ '2' then [(10 + (c2.toNat - 48), rest)] else [])
    ++ (if c1 = '0' ∧ '1' ≤ c2 ∧ c2 ≤ '9' then [(c2.toNat - 48, rest)] else [])
    ++ (if '1' ≤ c1 ∧ c1 ≤ '9' then [(c1.toNat - 48, c2 :: rest)] else [])
  | [c1] => if '1' ≤ c1 ∧ c1 ≤ '9' then [(c1.toNat - 48, [])] else []
  | [] => []

/-- `%d` in CPython `strptime`, regex `3[0-1]|[1-2]\d|0[1-9]|[1-9]| [1-9]`. -/
def dCands : List Char → List (ℕ × List Char)
  | c1 :: c2 :: rest =>
    (if c1 = '3' ∧ '0' ≤ c2 ∧ c2 ≤ '1' then [(30 + (c2.toNat - 48), rest)] else [])
    ++ (if '1' ≤ c1 ∧ c1 ≤ '2' ∧ c2.isDigit then
          [(10 * (c1.toNat - 48) + (c2.toNat - 48), rest)] else [])
    ++ (if c1 = '0' ∧ '1' ≤ c2 ∧ c2 ≤ '9' then [(c2.toNat - 48, rest)] else [])
    ++ (if '1' ≤ c1 ∧ c1 ≤ '9' then [(c1.toNat - 48, c2 :: rest)] else [])
    ++ (if c1 = ' ' ∧ '1' ≤ c2 ∧ c2 ≤ '9' then [(c2.toNat - 48, rest)] else [])
  | [c1] => if '1' ≤ c1 ∧ c1 ≤ '9' then [(c1.toNat - 48, [])] else []
  | [] => []

/-- `%H` in CPython `strptime`, regex `2[0-3]|[0-1]\d|\d`. -/
def hCands : List Char → List (ℕ × List Char)
  | c1 :: c2 :: rest =>
    (if c1 = '2' ∧ '0' ≤ c2 ∧ c2 ≤ '3' then [(20 + (c2.toNat - 48), rest)] else [])
    ++ (if '0' ≤ c1 ∧ c1 ≤ '1' ∧ c2.isDigit then
          [(10 * (c1.toNat - 48) + (c2.toNat - 48), rest)] else [])
    ++ (if c1.isDigit then [(c1.toNat - 48, c2 :: rest)] else [])
  | [c1] => if c1.isDigit then [(c1.toNat - 48, [])] else []
  | [] => []

/-- `%M` in CPython `strptime`, regex `[0-5]\d|\d`. -/
def minCands : List Char → List (ℕ × List Char)
  | c1 :: c2 :: rest =>
    (if '0' ≤ c1 ∧ c1 ≤ '5' ∧ c2.isDigit then
          [(10 * (c1.toNat - 48) + (c2.toNat - 48), rest)] else [])
    ++ (if c1.isDigit then [(c1.toNat - 48, c2 :: rest)] else [])
  | [c1] => if c1.isDigit then [(c1.toNat - 48, [])] else []
  | [] => []

/-- Consume one expected literal character. -/
def expectChar (c : Char) : List Char → Option (List Char)
  | x :: rest => if x = c then some rest else none
  | [] => none

/-- CPython `strptime` compiles a space in the format to `\s+`:
consume a nonempty maximal run of whitespace (the greedy match; a
shorter match could never be followed by a digit field anyway). -/
def skipSpaces : List Char → Option (List Char)
  | x :: rest =>
    if x.isWhitespace then some (rest.dropWhile Char.isWhitespace) else none
  | [] => none

/-- First successful alternative, in order. -/
def firstSome {α : Type} : List (Option α) → Option α
  | [] => none
  | o :: os => o <|> firstSome os

/-- The result of matching `"%Y-%m-%d %H:%M"`. -/
structure DT where
  year : ℕ
  month : ℕ
  dayOfMonth : ℕ
  hour : ℕ
  minute : ℕ
deriving DecidableEq

/-- The regex phase of `datetime.strptime(s, "%Y-%m-%d %H:%M")`: the first
complete pattern match in backtracking order, together with the unconsumed
remainder of the input (the engine does not backtrack to consume trailing
characters; CPython checks the remainder afterwards). -/
def regexYmdHM (cs : List Char) : Option (DT × List Char) :=
  match parseY cs with
  | none => none
  | some (y, r1) =>
    match expectChar '-' r1 with
    | none => none
    | some r2 =>
      firstSome ((mCands r2).map (fun pm =>
        (expectChar '-' pm.2).bind (fun r4 =>
          firstSome ((dCands r4).map (fun pd =>
            (skipSpaces pd.2).bind (fun r6 =>
              firstSome ((hCands r6).map (fun ph =>
                (expectChar ':' ph.2).bind (fun r8 =>
                  firstSome ((minCands r8).map (fun pmin =>
                    some (DT.mk y pm.1 pd.1 ph.1 pmin.1, pmin.2))))))))))))

/-- Gregorian leap year, as in `datetime`. -/
def isLeap (y : ℕ) : Bool := (y % 4 = 0 ∧ y % 100 ≠ 0) ∨ y % 400 = 0

/-- Days in a month, as validated by the `datetime` constructor. -/
def daysInMonth (y m : ℕ) : ℕ :=
  if m = 2 then (if isLeap y then 29 else 28)
  else if m = 4 ∨ m = 6 ∨ m = 9 ∨ m = 11 then 30 else 31

/-- `datetime.strptime(s, "%Y-%m-%d %H:%M")`: regex match, whole-input
check, then `datetime` range validation (year ≥ 1, day within month; the
regex already bounds month ≤ 12, hour ≤ 23, minute ≤ 59). -/
def strptimeYmdHM (s : String) : Option DT :=
  match regexYmdHM s.data with
  | none => none
  | some (t, rest) =>
    if rest = [] ∧ 1 ≤ t.year ∧ 1 ≤ t.dayOfMonth ∧
        t.dayOfMonth ≤ daysInMonth t.year t.month
    then some t else none

/-- `datetime.strptime(s, "%Y-%m-%d %H:%M").time()`, as the pair
(hour, minute) — seconds and microseconds are always zero here. -/
def strptimeTime (s : String) : Option (ℕ × ℕ) :=
  (strptimeYmdHM s).map (fun t => (t.hour, t.minute))

/-- `time(h, m).strftime("%I%p")`: zero-padded 12-hour clock plus
AM/PM marker (9:00 ↦ "09AM", 15:00 ↦ "03PM"). -/
def strftimeIp (t : ℕ × ℕ) : String :=
  let h12 := if t.1 % 12 = 0 then 12 else t.1 % 12
  (if h12 < 10 then "0" else "") ++ toString h12 ++ (if t.1 < 12 then "AM" else "PM")

/-- One entry of `forecast.forecastday[0].hour`, with the fields the
code reads (numbers as exact rationals, `time` as the raw string). -/
structure HourEntry where
  time : String
  gust_kph : ℚ
  wind_kph : ℚ
  pressure_mb : ℚ
  temp_c : ℚ
  wind_dir : String
  humidity : ℚ
  cloud : ℚ
deriving DecidableEq

/-- `forecast.forecastday[0].day`: the day-level aggregates plus the
nested `condition` text and icon. -/
structure DayData where
  maxtemp_c : ℚ
  mintemp_c : ℚ
  totalprecip_mm : ℚ
  condition_text : String
  condition_icon : String
deriving DecidableEq

/-- `forecast.forecastday[0]` of a history response: the day block and
the hourly series. -/
structure ForecastDay where
  day : DayData
  hour : List HourEntry
deriving DecidableEq

/-- `day_feature_names` from the source. -/
def day_feature_names : List String := ["maxtemp_c", "mintemp_c", "totalprecip_mm"]

/-- `hour_feature_names` from the source. -/
def hour_feature_names : List String :=
  ["wind_kph", "pressure_mb", "temp_c", "wind_dir", "humidity", "cloud"]

/-- `hour[k]` for `k` in `hour_feature_names` (the only keys the code
reads generically; other keys are never requested). -/
def hourVal (h : HourEntry) : String → Val
  | "wind_kph" => Val.num h.wind_kph
  | "pressure_mb" => Val.num h.pressure_mb
  | "temp_c" => Val.num h.temp_c
  | "wind_dir" => Val.str h.wind_dir
  | "humidity" => Val.num h.humidity
  | "cloud" => Val.num h.cloud
  | _ => Val.str ""

/-- `need_times = [time(9, 0), time(15, 0)]`. -/
def need_times : List (ℕ × ℕ) := [(9, 0), (15, 0)]

/-- The update literal `{f"{k}{str_time}": hour[k] for k in
hour_feature_names}` applied at time-of-day `t`. -/
def hourlyKvs (t : ℕ × ℕ) (h : HourEntry) : Dict :=
  hour_feature_names.map (fun k => (k ++ strftimeIp t, hourVal h k))

/-- One iteration of the hourly loop in `parse_history_response`:
append `gust_kph` to the gust list, parse the timestamp (a parse
failure aborts the whole call), and when the time-of-day is 09:00 or
15:00 assign the six hour features under keys suffixed by
`strftime("%I%p")`. The state is (dict so far, gusts so far). -/
def hourStep (st : Dict × List ℚ) (h : HourEntry) : Option (Dict × List ℚ) :=
  let gusts := st.2 ++ [h.gust_kph]
  match strptimeTime h.time with
  | none => none
  | some t =>
    if t ∈ need_times then some (dictUpdate st.1 (hourlyKvs t h), gusts)
    else some (st.1, gusts)

/-- The hourly loop of `parse_history_response`, over the whole series. -/
def processHours (st : Dict × List ℚ) : List HourEntry → Option (Dict × List ℚ)
  | [] => some st
  | h :: hs =>
    match hourStep st h with
    | none => none
    | some st2 => processHours st2 hs

/-- Python `max(list)`: `none` on an empty list (`ValueError`),
otherwise the first maximal element. -/
def listMax : List ℚ → Option ℚ
  | [] => none
  | x :: xs => some (xs.foldl (fun a b => if b > a then b else a) x)

/-- `feature_names_encoder` from the source: the provider→display key
renaming (`none` models a `KeyError` for a key outside the table). -/
def feature_names_encoder : String → Option String
  | "maxtemp_c" => some "MaxTemp"
  | "mintemp_c" => some "MinTemp"
  | "totalprecip_mm" => some "Rainfall"
  | "max_gust" => some "WindGustSpeed"
  | "wind_kph09AM" => some "WindSpeed9am"
  | "wind_kph03PM" => some "WindSpeed3pm"
  | "pressure_mb09AM" => some "Pressure9am"
  | "pressure_mb03PM" => some "Pressure3pm"
  | "temp_c09AM" => some "Temp9am"
  | "temp_c03PM" => some "Temp3pm"
  | "wind_dir09AM" => some "WindDir9am"
  | "wind_dir03PM" => some "WindDir3pm"
  | "humidity09AM" => some "Humidity9am"
  | "humidity03PM" => some "Humidity3pm"
  | "cloud09AM" => some "Cloud9am"
  | "cloud03PM" => some "Cloud3pm"
  | "rain_today" => some "RainToday"
  | _ => none

/-- The dict comprehension `{k: forecast_data["day"][k] for k in
day_feature_names}`, written out in comprehension order. -/
def dayDict (response : ForecastDay) : Dict :=
  [("maxtemp_c", Val.num response.day.maxtemp_c),
   ("mintemp_c", Val.num response.day.mintemp_c),
   ("totalprecip_mm", Val.num response.day.totalprecip_mm)]

/-- The `text`/`icon` entries attached from `day.condition`. -/
def textIconKvs (response : ForecastDay) : Dict :=
  [("text", Val.str response.day.condition_text),
   ("icon", Val.str response.day.condition_icon)]

/-- The `if not for_predict:` tail of `parse_history_response`: rebuild
the dict through `feature_names_encoder` (a `KeyError` for a key outside
the table aborts), attach `text`/`icon` from `day.condition`, and turn
`RainToday` into `"Yes"`/`"No"`. -/
def displayTail (response : ForecastDay) (d2 : Dict) : Option Dict := do
  let renamed ← d2.mapM (fun p =>
    (feature_names_encoder p.1).map (fun k2 => (k2, p.2)))
  let d3 := dictUpdate (dictUpdate [] renamed) (textIconKvs response)
  let rt ← dictGet d3 "RainToday"
  return dictSet d3 "RainToday"
    (Val.str (if rt = Val.num 1 then "Yes" else "No"))

/-- `parse_history_response(response, for_predict)`.  The argument is
`response["forecast"]["forecastday"][0]` (the containers are assumed
present, as in every claim); `none` models an uncaught exception
(unparsable hour timestamp, empty hourly series, or a missing key). -/
def parse_history_response (response : ForecastDay) (for_predict : Bool) :
    Option Dict := do
  let (d1, gusts) ← processHours (dayDict response, []) response.hour
  let mx ← listMax gusts
  let tp ← getNum d1 "totalprecip_mm"
  let d2 := dictUpdate d1
    [("max_gust", Val.num mx),
     ("rain_today", Val.num (if tp > 0 then 1 else 0))]
  if for_predict then return d2
  else displayTail response d2

/-- `formated_weather_data(data, for_predict)`: clamp `Rainfall` at 0,
render the ten common numeric fields with units, then either render
`RainToday` as a 0-decimal percentage (`for_predict`) or render the
humidity/cloud fields and delete `text`/`icon`.  `none` models an
uncaught exception (missing key, or a non-numeric value where a format
specifier needs a number).  `commonKvs` is the entry list of the first
`data.update(...)` call. -/
def commonKvs (minT maxT rain gust w9 w3 p9 p3 t9 t3 : ℚ) : Dict :=
  [("MinTemp", Val.str (formatFixed minT 1 ++ "°C")),
   ("MaxTemp", Val.str (formatFixed maxT 1 ++ "°C")),
   ("Rainfall", Val.str (formatFixed rain 2 ++ "mm")),
   ("WindGustSpeed", Val.str (formatFixed gust 1 ++ "kph")),
   ("WindSpeed9am", Val.str (formatFixed w9 1 ++ "kph")),
   ("WindSpeed3pm", Val.str (formatFixed w3 1 ++ "kph")),
   ("Pressure9am", Val.str (formatFixed p9 1 ++ "hPa")),
   ("Pressure3pm", Val.str (formatFixed p3 1 ++ "hPa")),
   ("Temp9am", Val.str (formatFixed t9 1 ++ "°C")),
   ("Temp3pm", Val.str (formatFixed t3 1 ++ "°C"))]

/-- The `update` literal of the first `data.update(...)` call: read the
ten common numeric fields (a missing or non-numeric field raises) and
assign their rendered strings. -/
def formatCommon (data : Dict) : Option Dict := do
  let minT ← getNum data "MinTemp"
  let maxT ← getNum data "MaxTemp"
  let rain ← getNum data "Rainfall"
  let gust ← getNum data "WindGustSpeed"
  let w9 ← getNum data "WindSpeed9am"
  let w3 ← getNum data "WindSpeed3pm"
  let p9 ← getNum data "Pressure9am"
  let p3 ← getNum data "Pressure3pm"
  let t9 ← getNum data "Temp9am"
  let t3 ← getNum data "Temp3pm"
  return dictUpdate data (commonKvs minT maxT rain gust w9 w3 p9 p3 t9 t3)

/-- The humidity/cloud entries of the second `data.update(...)` call. -/
def humidityKvs (h9 h3 c9 c3 : ℚ) : Dict :=
  [("Humidity9am", Val.str (formatFixed h9 0 ++ "%")),
   ("Humidity3pm", Val.str (formatFixed h3 0 ++ "%")),
   ("Cloud9am", Val.str (formatFixed c9 0 ++ "%")),
   ("Cloud3pm", Val.str (formatFixed c3 0 ++ "%"))]

def formated_weather_data (data : Dict) (for_predict : Bool) : Option Dict := do
  let r0 ← getNum data "Rainfall"
  let data := dictSet data "Rainfall" (Val.num (if r0 < 0 then 0 else r0))
  let data ← formatCommon data
  if for_predict then
    let rt ← getNum data "RainToday"
    return dictSet data "RainToday" (Val.str (formatPercent0 rt))
  else
    let h9 ← getNum data "Humidity9am"
    let h3 ← getNum data "Humidity3pm"
    let c9 ← getNum data "Cloud9am"
    let c3 ← getNum data "Cloud3pm"
    let data := dictUpdate data (humidityKvs h9 h3 c9 c3)
    if (dictGet data "text").isSome then
      let data := dictDel data "text"
      if (dictGet data "icon").isSome then
        return dictDel data "icon"
      else none
    else none

/-- An HTTP response from the weather provider: status code plus the
decoded JSON body (the transport is abstracted away). -/
structure HttpResp (α : Type) where
  status : ℕ
  body : α

/-- The `location` object of a current-conditions response, with the
fields the code reads (`tz_id` is absorbed into the date oracle). -/
structure CurrentBody where
  name : String
  country : String

/-- The exceptions `get_weather_data` can raise: `LocationNotFoundError`,
`requests.HTTPError` (from `raise_for_status`), or any parsing error. -/
inductive GWErr where
  | locationNotFound
  | httpError (code : ℕ)
  | parseError
deriving DecidableEq

/-- The first return component of `get_weather_data`: a 7×17 feature
matrix (`for_predict`) or a single display record. -/
inductive Payload where
  | matrix (rows : List (List Val))
  | record (d : Dict)
deriving DecidableEq

/-- `features_order` from the source, in its exact order. -/
def features_order : List String :=
  ["mintemp_c", "maxtemp_c", "totalprecip_mm", "max_gust",
   "wind_kph09AM", "wind_kph03PM", "pressure_mb09AM", "pressure_mb03PM",
   "temp_c09AM", "temp_c03PM", "wind_dir09AM", "wind_dir03PM",
   "humidity09AM", "humidity03PM", "cloud09AM", "cloud03PM", "rain_today"]

/-- `[parse_features[k] for k in features_order]`; `none` models the
`KeyError` raised when a key is absent. -/
def projectRow (d : Dict) : Option (List Val) := features_order.mapM (dictGet d)

/-- The status check the source performs after every provider call:
`== 400` raises `LocationNotFoundError`; `> 400` calls
`raise_for_status()`, which raises `HTTPError` exactly for codes in
[400, 600); every other code falls through. -/
def checkStatus (c : ℕ) : Option GWErr :=
  if c = 400 then some GWErr.locationNotFound
  else if 400 < c ∧ c < 600 then some (GWErr.httpError c)
  else none

/-- `parse_current_response(response)`: the location name and country
from the body; `datetime.now(tz).date()` is modelled by the `now_date`
oracle (dates are integer day numbers, `timedelta(days=k)` is `+ k`). -/
def parse_current_response (body : CurrentBody) (now_date : ℤ) : ℤ × String × String :=
  (now_date, body.name, body.country)

/-- The 7-iteration history loop of `get_weather_data` (`for_predict`
path): day `i` queries date `start + i`, checks the status, parses with
`for_predict=true` and projects through `features_order`; the first
failure aborts the loop. `n` counts the remaining iterations. -/
def predictLoop (histAt : ℤ → HttpResp ForecastDay) (start : ℤ) :
    ℕ → ℕ → Except GWErr (List (List Val))
  | _, 0 => Except.ok []
  | i, n + 1 =>
    let r := histAt (start + i)
    match checkStatus r.status with
    | some e => Except.error e
    | none =>
      match parse_history_response r.body true with
      | none => Except.error GWErr.parseError
      | some d =>
        match projectRow d with
        | none => Except.error GWErr.parseError
        | some row =>
          match predictLoop histAt start (i + 1) n with
          | Except.error e => Except.error e
          | Except.ok rest => Except.ok (row :: rest)

/-- `get_weather_data(location, for_predict)`.  The two endpoints are
response oracles: `cur` is the current-conditions response for the
location, `histAt d` the history response for date `d` (the `dt` query
parameter, elided string formatting aside).  Mirrors the source:
status checks, country gate, then either one history call (display
path, returns today's date) or seven chronological history calls
(prediction path, returns today + 1). -/
def get_weather_data (cur : HttpResp CurrentBody)
    (histAt : ℤ → HttpResp ForecastDay) (now_date : ℤ) (for_predict : Bool) :
    Except GWErr (Payload × String × String × ℤ) :=
  match checkStatus cur.status with
  | some e => Except.error e
  | none =>
    let (now, name, country) := parse_current_response cur.body now_date
    if country ≠ "Australia" then Except.error GWErr.locationNotFound
    else if !for_predict then
      let r := histAt now
      match checkStatus r.status with
      | some e => Except.error e
      | none =>
        match parse_history_response r.body false with
        | none => Except.error GWErr.parseError
        | some d => Except.ok (Payload.record d, name, country, now)
    else
      match predictLoop histAt (now - 6) 0 7 with
      | Except.error e => Except.error e
      | Except.ok rows => Except.ok (Payload.matrix rows, name, country, now + 1)

/-! ### Dictionary lemmas -/

theorem dictGet_dictSet (d : Dict) (k k' : String) (v : Val) :
    dictGet (dictSet d k' v) k = if k = k' then some v else dictGet d k := by
  induction d with
  | nil =>
    simp only [dictSet, dictGet]
    by_cases h : k = k'
    · simp [h]
    · have h' : ¬k' = k := fun hx => h hx.symm
      simp [h, h']
  | cons p rest ih =>
    simp only [dictSet]
    by_cases h1 : p.1 = k'
    · simp only [if_pos h1, dictGet]
      by_cases h2 : k = k'
      · subst h2
        simp [h1]
      · have h2' : ¬k' = k := fun hx => h2 hx.symm
        have hp : ¬p.1 = k := by rw [h1]; exact h2'
        simp [h2, h2', hp]
    · simp only [if_neg h1, dictGet, ih]
      by_cases h2 : p.1 = k
      · have h3 : ¬k = k' := fun hx => h1 (h2.trans hx)
        simp [h2, h3]
      · simp [h2]

theorem dictKeys_dictSet (d : Dict) (k : String) (v : Val) :
    dictKeys (dictSet d k v) =
      if k ∈ dictKeys d then dictKeys d else dictKeys d ++ [k] := by
  induction d with
  | nil => simp [dictSet, dictKeys]
  | cons p rest ih =>
    simp only [dictSet]
    by_cases h1 : p.1 = k
    · simp [dictKeys, h1]
    · have hne : ¬k = p.1 := fun hx => h1 hx.symm
      simp only [dictKeys, List.map] at ih ⊢
      simp only [if_neg h1, List.map]
      rw [ih]
      by_cases h2 : k ∈ List.map Prod.fst rest
      · simp [h2, List.mem_cons, hne]
      · simp [h2, List.mem_cons, hne]

theorem mem_dictKeys_dictSet (d : Dict) (k : String) (v : Val) (k' : String) :
    k' ∈ dictKeys (dictSet d k v) ↔ k' ∈ dictKeys d ∨ k' = k := by
  rw [dictKeys_dictSet]
  by_cases h : k ∈ dictKeys d
  · simp only [if_pos h]
    constructor
    · exact fun hx => Or.inl hx
    · rintro (hx | rfl) <;> [exact hx; exact h]
  · simp [if_neg h]

theorem nodup_dictKeys_dictSet (d : Dict) (k : String) (v : Val)
    (h : (dictKeys d).Nodup) : (dictKeys (dictSet d k v)).Nodup := by
  rw [dictKeys_dictSet]
  by_cases hm : k ∈ dictKeys d
  · simpa [hm] using h
  · simp [hm, h, List.nodup_append]

/-- The value that a sequence of dict assignments leaves at key `k`:
the value of the last pair for `k`, if any. -/
def lastVal : List (String × Val) → String → Option Val
  | [], _ => none
  | p :: rest, k =>
    match lastVal rest k with
    | some v => some v
    | none => if p.1 = k then some p.2 else none

theorem dictGet_dictUpdate (kvs : List (String × Val)) (d : Dict) (k : String) :
    dictGet (dictUpdate d kvs) k =
      match lastVal kvs k with
      | some v => some v
      | none => dictGet d k := by
  induction kvs generalizing d with
  | nil => simp [dictUpdate, lastVal]
  | cons kv kvs ih =>
    have step : dictUpdate d (kv :: kvs) = dictUpdate (dictSet d kv.1 kv.2) kvs := rfl
    rw [step, ih]
    cases h : lastVal kvs k with
    | some v => simp [lastVal, h]
    | none =>
      simp only [lastVal, h, dictGet_dictSet]
      by_cases h2 : kv.1 = k
      · simp [h2]
      · have h2' : ¬k = kv.1 := fun hx => h2 hx.symm
        simp [h2, h2']

theorem mem_dictKeys_dictUpdate (kvs : List (String × Val)) (d : Dict) (k' : String) :
    k' ∈ dictKeys (dictUpdate d kvs) ↔ k' ∈ dictKeys d ∨ k' ∈ kvs.map Prod.fst := by
  induction kvs generalizing d with
  | nil => simp [dictUpdate]
  | cons kv kvs ih =>
    have step : dictUpdate d (kv :: kvs) = dictUpdate (dictSet d kv.1 kv.2) kvs := rfl
    rw [step, ih]
    simp [mem_dictKeys_dictSet, or_assoc, or_comm, or_left_comm]

theorem nodup_dictKeys_dictUpdate (kvs : List (String × Val)) (d : Dict)
    (h : (dictKeys d).Nodup) : (dictKeys (dictUpdate d kvs)).Nodup := by
  induction kvs generalizing d with
  | nil => simpa [dictUpdate] using h
  | cons kv kvs ih =>
    exact ih (dictSet d kv.1 kv.2) (nodup_dictKeys_dictSet d kv.1 kv.2 h)

theorem dictGet_isSome_iff (d : Dict) (k : String) :
    (dictGet d k).isSome ↔ k ∈ dictKeys d := by
  induction d with
  | nil => simp [dictGet, dictKeys]
  | cons p rest ih =>
    simp only [dictGet, dictKeys, List.map, List.mem_cons]
    by_cases h : p.1 = k
    · subst h
      simp
    · have h' : ¬k = p.1 := fun hx => h hx.symm
      simp only [if_neg h]
      simp only [dictKeys] at ih
      simp [ih, h']

theorem mem_dictKeys_of_dictGet (d : Dict) (k : String) (v : Val)
    (h : dictGet d k = some v) : k ∈ dictKeys d :=
  (dictGet_isSome_iff d k).mp (by simp [h])

theorem dictGet_dictDel (d : Dict) (k k' : String) :
    dictGet (dictDel d k) k' = if k' = k then none else dictGet d k' := by
  induction d with
  | nil => simp [dictDel, dictGet]
  | cons p rest ih =>
    by_cases h1 : p.1 = k
    · have hstep : dictDel (p :: rest) k = dictDel rest k := by
        simp [dictDel, List.filter_cons, h1]
      rw [hstep, ih]
      by_cases h2 : k' = k
      · simp [h2]
      · have hp : ¬p.1 = k' := fun hx => h2 (hx.symm.trans h1)
        simp [h2, hp, dictGet]
    · have hstep : dictDel (p :: rest) k = p :: dictDel rest k := by
        simp [dictDel, List.filter_cons, h1]
      rw [hstep]
      simp only [dictGet, ih]
      by_cases h2 : p.1 = k'
      · have h3 : ¬k' = k := fun hx => h1 (h2.trans hx)
        simp [h2, h3]
      · simp [h2]

theorem mem_dictKeys_dictDel (d : Dict) (k k' : String) :
    k' ∈ dictKeys (dictDel d k) ↔ k' ∈ dictKeys d ∧ k' ≠ k := by
  rw [← dictGet_isSome_iff, ← dictGet_isSome_iff, dictGet_dictDel]
  by_cases h : k' = k <;> simp [h]

theorem getNum_eq_some_iff (d : Dict) (k : String) (q : ℚ) :
    getNum d k = some q ↔ dictGet d k = some (Val.num q) := by
  unfold getNum
  cases h : dictGet d k with
  | none => simp
  | some v => cases v <;> simp_all

theorem lastVal_isSome_iff (kvs : List (String × Val)) (k : String) :
    (lastVal kvs k).isSome ↔ k ∈ kvs.map Prod.fst := by
  induction kvs with
  | nil => simp [lastVal]
  | cons p rest ih =>
    simp only [lastVal, List.map_cons, List.mem_cons]
    cases h : lastVal rest k with
    | some v =>
      simp only [h, Option.isSome_some, true_iff] at ih ⊢
      exact Or.inr ih
    | none =>
      simp only [h, Option.isSome_none] at ih ⊢
      by_cases hp : p.1 = k
      · simp [hp]
      · have hp' : ¬k = p.1 := fun hx => hp hx.symm
        simp [hp, hp', ih]

theorem lastVal_eq_none_iff (kvs : List (String × Val)) (k : String) :
    lastVal kvs k = none ↔ k ∉ kvs.map Prod.fst := by
  rw [← lastVal_isSome_iff]
  exact Iff.symm Option.not_isSome_iff_eq_none

/-! ### Lemmas about the hourly loop -/

/-- The twelve keys the hourly loop can assign. -/
def allHourlyKeys : List String :=
  hour_feature_names.map (fun k => k ++ "09AM")
    ++ hour_feature_names.map (fun k => k ++ "03PM")

theorem map_fst_hourlyKvs (t : ℕ × ℕ) (h : HourEntry) :
    (hourlyKvs t h).map Prod.fst = hour_feature_names.map (fun k => k ++ strftimeIp t) := by
  simp [hourlyKvs, List.map_map]

theorem mem_need_times_iff (t : ℕ × ℕ) :
    t ∈ need_times ↔ t = (9, 0) ∨ t = (15, 0) := by
  simp [need_times]

/-- The gust list the loop builds is the list of all `gust_kph` values,
in order, appended to the incoming state. -/
theorem processHours_snd (hs : List HourEntry) (st st' : Dict × List ℚ)
    (h : processHours st hs = some st') :
    st'.2 = st.2 ++ hs.map HourEntry.gust_kph := by
  induction hs generalizing st with
  | nil =>
    simp only [processHours] at h
    cases h
    simp
  | cons hd tl ih =>
    simp only [processHours, hourStep] at h
    cases hp : strptimeTime hd.time with
    | none => simp [hp] at h
    | some t =>
      simp only [hp] at h
      by_cases hm : t ∈ need_times
      · simp only [if_pos hm] at h
        have := ih _ h
        simpa using this
      · simp only [if_neg hm] at h
        have := ih _ h
        simpa using this

/-- The loop succeeds exactly when every timestamp parses. -/
theorem processHours_isSome (hs : List HourEntry) (st : Dict × List ℚ)
    (hp : ∀ h ∈ hs, (strptimeTime h.time).isSome) :
    (processHours st hs).isSome := by
  induction hs generalizing st with
  | nil => simp [processHours]
  | cons hd tl ih =>
    have hhd : (strptimeTime hd.time).isSome := hp hd (List.mem_cons_self hd tl)
    cases ht : strptimeTime hd.time with
    | none => rw [ht] at hhd; simp at hhd
    | some t =>
      simp only [processHours, hourStep, ht]
      by_cases hm : t ∈ need_times
      · simp only [if_pos hm]
        exact ih _ (fun h hh => hp h (List.mem_cons_of_mem hd hh))
      · simp only [if_neg hm]
        exact ih _ (fun h hh => hp h (List.mem_cons_of_mem hd hh))

/-- Keys outside the twelve hourly keys are untouched by the loop. -/
theorem processHours_get_preserve (hs : List HourEntry) (st st' : Dict × List ℚ)
    (h : processHours st hs = some st') (k : String) (hk : k ∉ allHourlyKeys) :
    dictGet st'.1 k = dictGet st.1 k := by
  induction hs generalizing st with
  | nil =>
    simp only [processHours] at h
    cases h
    rfl
  | cons hd tl ih =>
    simp only [processHours, hourStep] at h
    cases hp : strptimeTime hd.time with
    | none => simp [hp] at h
    | some t =>
      simp only [hp] at h
      by_cases hm : t ∈ need_times
      · simp only [if_pos hm] at h
        rw [ih _ h]
        show dictGet (dictUpdate st.1 (hourlyKvs t hd)) k = dictGet st.1 k
        rw [dictGet_dictUpdate]
        have hnone : lastVal (hourlyKvs t hd) k = none := by
          rw [lastVal_eq_none_iff, map_fst_hourlyKvs]
          intro hmem
          apply hk
          rcases (mem_need_times_iff t).mp hm with rfl | rfl
          · exact List.mem_append_left _ hmem
          · exact List.mem_append_right _ hmem
        rw [hnone]
      · simp only [if_neg hm] at h
        exact ih (st.1, st.2 ++ [hd.gust_kph]) h

/-- The last entry of the series whose timestamp parses to time-of-day
`t`, scanning back to front. -/
def lastMatch (t : ℕ × ℕ) : List HourEntry → Option HourEntry
  | [] => none
  | h :: hs =>
    match lastMatch t hs with
    | some r => some r
    | none => if strptimeTime h.time = some t then some h else none

theorem strftimeIp_nine : strftimeIp (9, 0) = "09AM" := rfl

theorem strftimeIp_fifteen : strftimeIp (15, 0) = "03PM" := rfl

theorem lastVal_hourlyKvs_self (t : ℕ × ℕ) (ht : t ∈ need_times) (h : HourEntry)
    (k : String) (hk : k ∈ hour_feature_names) :
    lastVal (hourlyKvs t h) (k ++ strftimeIp t) = some (hourVal h k) := by
  simp only [hour_feature_names] at hk
  rcases (mem_need_times_iff t).mp ht with rfl | rfl <;> fin_cases hk <;> rfl

theorem lastVal_hourlyKvs_ne (t t' : ℕ × ℕ) (ht : t ∈ need_times)
    (ht' : t' ∈ need_times) (hne : t' ≠ t) (h : HourEntry)
    (k : String) (hk : k ∈ hour_feature_names) :
    lastVal (hourlyKvs t' h) (k ++ strftimeIp t) = none := by
  simp only [hour_feature_names] at hk
  rcases (mem_need_times_iff t).mp ht with rfl | rfl <;>
    rcases (mem_need_times_iff t').mp ht' with rfl | rfl <;>
      first
        | exact absurd rfl hne
        | (fin_cases hk <;> rfl)

/-- The hourly loop leaves, at each suffixed key, the value of the last
matching entry (later matches overwrite earlier ones); when no entry
matches, the incoming value. -/
theorem processHours_get_hourly (hs : List HourEntry) (st st' : Dict × List ℚ)
    (h : processHours st hs = some st') (t : ℕ × ℕ) (ht : t ∈ need_times)
    (k : String) (hk : k ∈ hour_feature_names) :
    dictGet st'.1 (k ++ strftimeIp t) =
      match lastMatch t hs with
      | some hr => some (hourVal hr k)
      | none => dictGet st.1 (k ++ strftimeIp t) := by
  induction hs generalizing st with
  | nil =>
    simp only [processHours] at h
    cases h
    simp [lastMatch]
  | cons hd tl ih =>
    simp only [processHours, hourStep] at h
    cases hp : strptimeTime hd.time with
    | none => simp [hp] at h
    | some t' =>
      simp only [hp] at h
      by_cases hm : t' ∈ need_times
      · simp only [if_pos hm] at h
        rw [ih _ h]
        cases hl : lastMatch t tl with
        | some r => simp [lastMatch, hl]
        | none =>
          simp only [lastMatch, hl]
          rw [dictGet_dictUpdate]
          by_cases he : t' = t
          · subst he
            rw [lastVal_hourlyKvs_self t' hm hd k hk]
            simp [hp]
          · rw [lastVal_hourlyKvs_ne t t' ht hm he hd k hk]
            simp [hp, he]
      · simp only [if_neg hm] at h
        rw [ih _ h]
        cases hl : lastMatch t tl with
        | some r => simp [lastMatch, hl]
        | none =>
          have hne : ¬t' = t := fun hx => hm (hx ▸ ht)
          simp [lastMatch, hl, hp, hne]

/-- Key membership after the hourly loop: the incoming keys, plus the
six `09AM` keys when some entry parses to 09:00, plus the six `03PM`
keys when some entry parses to 15:00. -/
theorem processHours_keys_mem (hs : List HourEntry) (st st' : Dict × List ℚ)
    (h : processHours st hs = some st') (k : String) :
    k ∈ dictKeys st'.1 ↔ k ∈ dictKeys st.1
      ∨ ((∃ hh ∈ hs, strptimeTime hh.time = some (9, 0)) ∧
          k ∈ hour_feature_names.map (fun n => n ++ "09AM"))
      ∨ ((∃ hh ∈ hs, strptimeTime hh.time = some (15, 0)) ∧
          k ∈ hour_feature_names.map (fun n => n ++ "03PM")) := by
  induction hs generalizing st with
  | nil =>
    simp only [processHours] at h
    cases h
    simp
  | cons hd tl ih =>
    simp only [processHours, hourStep] at h
    cases hp : strptimeTime hd.time with
    | none => simp [hp] at h
    | some t' =>
      simp only [hp] at h
      by_cases hm : t' ∈ need_times
      · simp only [if_pos hm] at h
        rw [ih _ h]
        rcases (mem_need_times_iff t').mp hm with rfl | rfl
        · rw [mem_dictKeys_dictUpdate, map_fst_hourlyKvs]
          have e2 : ¬((9, 0) : ℕ × ℕ) = (15, 0) := by decide
          simp only [strftimeIp_nine, List.exists_mem_cons_iff, hp,
            Option.some.injEq, eq_self_iff_true, true_or, true_and, e2, false_or]
          constructor
          · rintro ((ha | hb) | ⟨_, hb⟩ | hc)
            · exact Or.inl ha
            · exact Or.inr (Or.inl hb)
            · exact Or.inr (Or.inl hb)
            · exact Or.inr (Or.inr hc)
          · rintro (ha | hb | hc)
            · exact Or.inl (Or.inl ha)
            · exact Or.inl (Or.inr hb)
            · exact Or.inr (Or.inr hc)
        · rw [mem_dictKeys_dictUpdate, map_fst_hourlyKvs]
          have e2 : ¬((15, 0) : ℕ × ℕ) = (9, 0) := by decide
          simp only [strftimeIp_fifteen, List.exists_mem_cons_iff, hp,
            Option.some.injEq, eq_self_iff_true, true_or, true_and, e2, false_or]
          constructor
          · rintro ((ha | hb) | hc | ⟨_, hb⟩)
            · exact Or.inl ha
            · exact Or.inr (Or.inr hb)
            · exact Or.inr (Or.inl hc)
            · exact Or.inr (Or.inr hb)
          · rintro (ha | hc | hb)
            · exact Or.inl (Or.inl ha)
            · exact Or.inr (Or.inl hc)
            · exact Or.inl (Or.inr hb)
      · simp only [if_neg hm] at h
        rw [ih _ h]
        have h9 : ¬t' = (9, 0) := fun hx => hm (hx ▸ (mem_need_times_iff _).mpr (Or.inl rfl))
        have h15 : ¬t' = (15, 0) := fun hx => hm (hx ▸ (mem_need_times_iff _).mpr (Or.inr rfl))
        simp only [List.exists_mem_cons_iff, hp, Option.some.injEq]
        constructor
        · rintro (ha | ⟨he, hb⟩ | ⟨he, hb⟩)
          · exact Or.inl ha
          · exact Or.inr (Or.inl ⟨Or.inr he, hb⟩)
          · exact Or.inr (Or.inr ⟨Or.inr he, hb⟩)
        · rintro (ha | ⟨he | he, hb⟩ | ⟨he | he, hb⟩)
          · exact Or.inl ha
          · exact absurd he h9
          · exact Or.inr (Or.inl ⟨he, hb⟩)
          · exact absurd he h15
          · exact Or.inr (Or.inr ⟨he, hb⟩)

/-- The hourly loop preserves key uniqueness. -/
theorem processHours_nodup (hs : List HourEntry) (st st' : Dict × List ℚ)
    (h : processHours st hs = some st') (hn : (dictKeys st.1).Nodup) :
    (dictKeys st'.1).Nodup := by
  induction hs generalizing st with
  | nil =>
    simp only [processHours] at h
    cases h
    exact hn
  | cons hd tl ih =>
    simp only [processHours, hourStep] at h
    cases hp : strptimeTime hd.time with
    | none => simp [hp] at h
    | some t' =>
      simp only [hp] at h
      by_cases hm : t' ∈ need_times
      · simp only [if_pos hm] at h
        exact ih _ h (nodup_dictKeys_dictUpdate _ _ hn)
      · simp only [if_neg hm] at h
        exact ih _ h hn

/-! ### Shape of a successful `parse_history_response` -/

theorem dictGet_dayDict_totalprecip (resp : ForecastDay) :
    dictGet (dayDict resp) "totalprecip_mm" = some (Val.num resp.day.totalprecip_mm) := rfl

/-- Destructuring a successful feature-variant parse. -/
theorem parse_true_some (resp : ForecastDay) (d : Dict)
    (h : parse_history_response resp true = some d) :
    ∃ d1 gusts mx, processHours (dayDict resp, []) resp.hour = some (d1, gusts) ∧
      listMax gusts = some mx ∧
      d = dictUpdate d1
        [("max_gust", Val.num mx),
         ("rain_today", Val.num (if resp.day.totalprecip_mm > 0 then 1 else 0))] := by
  unfold parse_history_response at h
  cases hph : processHours (dayDict resp, []) resp.hour with
  | none => rw [hph] at h; simp at h
  | some st =>
    obtain ⟨d1, gusts⟩ := st
    rw [hph] at h
    simp only [Option.bind_eq_bind', Option.some_bind'] at h
    cases hmx : listMax gusts with
    | none => rw [hmx] at h; simp at h
    | some mx =>
      rw [hmx] at h
      simp only [Option.bind_eq_bind', Option.some_bind'] at h
      have hpre : dictGet d1 "totalprecip_mm" = some (Val.num resp.day.totalprecip_mm) := by
        have hp := processHours_get_preserve resp.hour (dayDict resp, [])
          (d1, gusts) hph "totalprecip_mm" (by decide)
        rw [hp]
        exact dictGet_dayDict_totalprecip resp
      have htp : getNum d1 "totalprecip_mm" = some resp.day.totalprecip_mm :=
        (getNum_eq_some_iff d1 "totalprecip_mm" resp.day.totalprecip_mm).mpr hpre
      rw [htp] at h
      simp only [Option.bind_eq_bind', Option.some_bind', Option.pure_def, if_true] at h
      refine ⟨d1, gusts, mx, rfl, hmx, ?_⟩
      simpa using h.symm

/-- Destructuring a successful display-variant parse. -/
theorem parse_false_some (resp : ForecastDay) (d : Dict)
    (h : parse_history_response resp false = some d) :
    ∃ d1 gusts mx, processHours (dayDict resp, []) resp.hour = some (d1, gusts) ∧
      listMax gusts = some mx ∧
      displayTail resp (dictUpdate d1
        [("max_gust", Val.num mx),
         ("rain_today", Val.num (if resp.day.totalprecip_mm > 0 then 1 else 0))]) = some d := by
  unfold parse_history_response at h
  cases hph : processHours (dayDict resp, []) resp.hour with
  | none => rw [hph] at h; simp at h
  | some st =>
    obtain ⟨d1, gusts⟩ := st
    rw [hph] at h
    simp only [Option.bind_eq_bind', Option.some_bind'] at h
    cases hmx : listMax gusts with
    | none => rw [hmx] at h; simp at h
    | some mx =>
      rw [hmx] at h
      simp only [Option.bind_eq_bind', Option.some_bind'] at h
      have hpre : dictGet d1 "totalprecip_mm" = some (Val.num resp.day.totalprecip_mm) := by
        have hp := processHours_get_preserve resp.hour (dayDict resp, [])
          (d1, gusts) hph "totalprecip_mm" (by decide)
        rw [hp]
        exact dictGet_dayDict_totalprecip resp
      have htp : getNum d1 "totalprecip_mm" = some resp.day.totalprecip_mm :=
        (getNum_eq_some_iff d1 "totalprecip_mm" resp.day.totalprecip_mm).mpr hpre
      rw [htp] at h
      simp only [Option.bind_eq_bind', Option.some_bind', if_false] at h
      exact ⟨d1, gusts, mx, rfl, hmx, h⟩

/-- A successful feature-variant parse leaves, at each suffixed hourly
key, the field of the last hourly entry matching that time-of-day. -/
theorem parse_true_get_hourly (resp : ForecastDay) (d : Dict)
    (h : parse_history_response resp true = some d) (t : ℕ × ℕ)
    (ht : t ∈ need_times) (hr : HourEntry) (hl : lastMatch t resp.hour = some hr)
    (k : String) (hk : k ∈ hour_feature_names) :
    dictGet d (k ++ strftimeIp t) = some (hourVal hr k) := by
  obtain ⟨d1, gusts, mx, hph, hmx, rfl⟩ := parse_true_some resp d h
  rw [dictGet_dictUpdate]
  have hnone : lastVal
      [("max_gust", Val.num mx),
       ("rain_today", Val.num (if resp.day.totalprecip_mm > 0 then 1 else 0))]
      (k ++ strftimeIp t) = none := by
    rw [lastVal_eq_none_iff]
    intro hmem
    simp only [List.map_cons, List.map_nil, List.mem_cons,
      List.not_mem_nil, or_false] at hmem
    simp only [hour_feature_names] at hk
    rcases (mem_need_times_iff t).mp ht with rfl | rfl <;>
      fin_cases hk <;> exact absurd hmem (by decide)
  rw [hnone]
  have hh := processHours_get_hourly resp.hour _ _ hph t ht k hk
  rw [hh, hl]

/-- A feature-variant parse succeeds whenever every timestamp parses
and the hourly series is nonempty. -/
theorem parse_true_isSome (resp : ForecastDay)
    (hp : ∀ h ∈ resp.hour, (strptimeTime h.time).isSome) (hne : resp.hour ≠ []) :
    (parse_history_response resp true).isSome := by
  have hps := processHours_isSome resp.hour (dayDict resp, []) hp
  obtain ⟨st, hst⟩ := Option.isSome_iff_exists.mp hps
  obtain ⟨d1, gusts⟩ := st
  have hg : gusts = resp.hour.map HourEntry.gust_kph := by
    have := processHours_snd resp.hour _ _ hst
    simpa using this
  have hgne : gusts ≠ [] := by
    rw [hg]
    simpa using hne
  obtain ⟨mx, hmx⟩ : ∃ mx, listMax gusts = some mx := by
    cases gusts with
    | nil => exact absurd rfl hgne
    | cons a as => exact ⟨_, rfl⟩
  have hpre : dictGet d1 "totalprecip_mm" = some (Val.num resp.day.totalprecip_mm) := by
    have hpp := processHours_get_preserve resp.hour (dayDict resp, [])
      (d1, gusts) hst "totalprecip_mm" (by decide)
    rw [hpp]
    exact dictGet_dayDict_totalprecip resp
  have htp := (getNum_eq_some_iff d1 "totalprecip_mm" resp.day.totalprecip_mm).mpr hpre
  unfold parse_history_response
  rw [hst]
  simp [Option.bind_eq_bind', Option.some_bind', hmx, htp]

/-! ### Claims C3, C6, C10 -/

/-- C3: for every history response accepted by `parse_history_response`
(feature variant), the `rain_today` value in the result is 1 when the
day's `totalprecip_mm` is strictly greater than 0 and 0 otherwise; in
particular `totalprecip_mm = 0` yields 0. -/
theorem C3_rain_today (resp : ForecastDay) (d : Dict)
    (h : parse_history_response resp true = some d) :
    dictGet d "rain_today" =
      some (Val.num (if resp.day.totalprecip_mm > 0 then 1 else 0)) := by
  obtain ⟨d1, gusts, mx, hph, hmx, rfl⟩ := parse_true_some resp d h
  rw [dictGet_dictUpdate]
  simp [lastVal]

def hourW09 : HourEntry := ⟨"2024-05-03 09:00", 30, 10, 1012, 15, "NW", 60, 25⟩

def fdC3 : ForecastDay := ⟨⟨21, 11, 0, "Sunny", "i"⟩, [hourW09]⟩

theorem C3_rain_today_witness :
    parse_history_response fdC3 true = some ((parse_history_response fdC3 true).getD []) ∧
    dictGet ((parse_history_response fdC3 true).getD []) "rain_today" =
      some (Val.num (if fdC3.day.totalprecip_mm > 0 then 1 else 0)) := by
  refine ⟨by decide, ?_⟩
  exact C3_rain_today fdC3 _ (by decide)

/-- C6: an hourly entry whose `"YYYY-MM-DD HH:MM"` timestamp parses to
time-of-day 09:00 or 15:00 contributes its six feature values under the
suffixed keys; an entry with any other parsed time-of-day leaves the
dict unchanged and contributes only its `gust_kph` to the gust list. -/
theorem C6_hour_selection (st : Dict × List ℚ) (h : HourEntry) (t : ℕ × ℕ)
    (hp : strptimeTime h.time = some t) :
    (t = (9, 0) ∨ t = (15, 0) →
      hourStep st h = some (dictUpdate st.1 (hourlyKvs t h), st.2 ++ [h.gust_kph])) ∧
    (¬(t = (9, 0) ∨ t = (15, 0)) →
      hourStep st h = some (st.1, st.2 ++ [h.gust_kph])) := by
  constructor <;> intro hc <;> simp [hourStep, hp, mem_need_times_iff, hc]

def hourW12 : HourEntry := ⟨"2024-05-03 12:00", 45, 12, 1013, 18, "N", 55, 20⟩

theorem C6_hour_selection_witness :
    strptimeTime hourW12.time = some (12, 0) ∧
    hourStep ([("maxtemp_c", Val.num 21)], [3]) hourW12 =
      some ([("maxtemp_c", Val.num 21)], [3, 45]) := by
  refine ⟨by decide, ?_⟩
  exact (C6_hour_selection ([("maxtemp_c", Val.num 21)], [3]) hourW12 (12, 0)
    (by decide)).2 (by decide)

/-- C10: with several hourly entries parsing to 09:00 (or 15:00), the
parser silently keeps the values of the last such entry in input order
for the suffixed keys, and duplicate matches never cause a failure
(the parse succeeds whenever every timestamp parses and the series is
nonempty). -/
theorem C10_duplicate_last_wins (resp : ForecastDay) :
    (∀ d hr k, parse_history_response resp true = some d →
        lastMatch (9, 0) resp.hour = some hr → k ∈ hour_feature_names →
        dictGet d (k ++ "09AM") = some (hourVal hr k)) ∧
    (∀ d hr k, parse_history_response resp true = some d →
        lastMatch (15, 0) resp.hour = some hr → k ∈ hour_feature_names →
        dictGet d (k ++ "03PM") = some (hourVal hr k)) ∧
    ((∀ hh ∈ resp.hour, (strptimeTime hh.time).isSome) → resp.hour ≠ [] →
      (parse_history_response resp true).isSome) := by
  refine ⟨?_, ?_, ?_⟩
  · intro d hr k h hl hk
    have hres := parse_true_get_hourly resp d h (9, 0)
      ((mem_need_times_iff _).mpr (Or.inl rfl)) hr hl k hk
    simpa [strftimeIp_nine] using hres
  · intro d hr k h hl hk
    have hres := parse_true_get_hourly resp d h (15, 0)
      ((mem_need_times_iff _).mpr (Or.inr rfl)) hr hl k hk
    simpa [strftimeIp_fifteen] using hres
  · exact fun hp hne => parse_true_isSome resp hp hne

def hourDupA : HourEntry := ⟨"2024-05-03 09:00", 30, 10, 1012, 15, "NW", 60, 25⟩

def hourDupB : HourEntry := ⟨"2024-05-03 09:00", 33, 99, 990, 20, "SE", 70, 10⟩

def fdC10 : ForecastDay := ⟨⟨21, 11, 5, "Rain", "i"⟩, [hourDupA, hourDupB]⟩

theorem C10_duplicate_last_wins_witness :
    parse_history_response fdC10 true = some ((parse_history_response fdC10 true).getD []) ∧
    lastMatch (9, 0) fdC10.hour = some hourDupB ∧
    dictGet ((parse_history_response fdC10 true).getD []) ("wind_kph" ++ "09AM") =
      some (hourVal hourDupB "wind_kph") := by
  refine ⟨by decide, by decide, ?_⟩
  exact (C10_duplicate_last_wins fdC10).1 ((parse_history_response fdC10 true).getD [])
    hourDupB "wind_kph" (by decide) (by decide) (by decide)

/-! ### The display renaming -/

/-- The display-variant key set produced by `feature_names_encoder`, in
the image order of `features_order`. -/
def displayNames : List String :=
  ["MinTemp", "MaxTemp", "Rainfall", "WindGustSpeed",
   "WindSpeed9am", "WindSpeed3pm", "Pressure9am", "Pressure3pm",
   "Temp9am", "Temp3pm", "WindDir9am", "WindDir3pm",
   "Humidity9am", "Humidity3pm", "Cloud9am", "Cloud3pm", "RainToday"]

/-- The full display key set: renamed features plus `text`/`icon`. -/
def displayKeys : List String := displayNames ++ ["text", "icon"]

theorem features_map_encoder :
    features_order.map feature_names_encoder = displayNames.map some := by decide

theorem map09_eq : hour_feature_names.map (fun n => n ++ "09AM") =
    ["wind_kph09AM", "pressure_mb09AM", "temp_c09AM", "wind_dir09AM",
     "humidity09AM", "cloud09AM"] := by decide

theorem map03_eq : hour_feature_names.map (fun n => n ++ "03PM") =
    ["wind_kph03PM", "pressure_mb03PM", "temp_c03PM", "wind_dir03PM",
     "humidity03PM", "cloud03PM"] := by decide

theorem exists_enc_iff (k : String) :
    (∃ s ∈ features_order, feature_names_encoder s = some k) ↔ k ∈ displayNames := by
  constructor
  · rintro ⟨s, hs, he⟩
    have hmem : some k ∈ features_order.map feature_names_encoder := by
      rw [List.mem_map]
      exact ⟨s, hs, he⟩
    rw [features_map_encoder] at hmem
    exact (List.mem_map_of_injective (Option.some_injective String)).mp hmem
  · intro hk
    have hmem : some k ∈ displayNames.map some := List.mem_map_of_mem some hk
    rw [← features_map_encoder, List.mem_map] at hmem
    obtain ⟨s, hs, he⟩ := hmem
    exact ⟨s, hs, he⟩

theorem mapM_rename_isSome (l : Dict)
    (hall : ∀ p ∈ l, (feature_names_encoder p.1).isSome) :
    (l.mapM (fun p => (feature_names_encoder p.1).map (fun k2 => (k2, p.2)))).isSome := by
  induction l with
  | nil => rw [List.mapM_nil]; simp
  | cons p l ih =>
    have hp := hall p (List.mem_cons_self p l)
    obtain ⟨k2, hk2⟩ := Option.isSome_iff_exists.mp hp
    obtain ⟨out, hout⟩ :=
      Option.isSome_iff_exists.mp (ih (fun q hq => hall q (List.mem_cons_of_mem p hq)))
    rw [List.mapM_cons]
    simp only [hk2, hout, Option.map_some', Option.bind_eq_bind', Option.some_bind',
      Option.pure_def, Option.isSome_some]

theorem mapM_rename_forall (l : Dict) (out : List (String × Val))
    (h : l.mapM (fun p => (feature_names_encoder p.1).map (fun k2 => (k2, p.2))) = some out) :
    List.Forall₂ (fun p q => feature_names_encoder p.1 = some q.1 ∧ q.2 = p.2) l out := by
  induction l generalizing out with
  | nil =>
    simp only [List.mapM_nil, Option.pure_def, Option.some.injEq] at h
    subst h
    exact List.Forall₂.nil
  | cons p l ih =>
    rw [List.mapM_cons] at h
    cases hk : feature_names_encoder p.1 with
    | none => simp [hk] at h
    | some k2 =>
      simp only [hk, Option.map_some', Option.bind_eq_bind', Option.some_bind'] at h
      cases hm : l.mapM (fun p => (feature_names_encoder p.1).map (fun k2 => (k2, p.2))) with
      | none => rw [hm] at h; simp at h
      | some outTail =>
        rw [hm] at h
        simp only [Option.bind_eq_bind', Option.some_bind', Option.pure_def,
          Option.some.injEq] at h
        subst h
        exact List.Forall₂.cons ⟨hk, rfl⟩ (ih outTail hm)

theorem forall2_keys_mem (l : Dict) (out : List (String × Val))
    (hfa : List.Forall₂ (fun p q => feature_names_encoder p.1 = some q.1 ∧ q.2 = p.2) l out)
    (k : String) :
    k ∈ out.map Prod.fst ↔ ∃ s ∈ dictKeys l, feature_names_encoder s = some k := by
  induction hfa with
  | nil => simp [dictKeys]
  | @cons a b l1 l2 hpq hrest ih =>
    obtain ⟨h1, h2⟩ := hpq
    have hl : dictKeys (a :: l1) = a.1 :: dictKeys l1 := rfl
    have hr : (b :: l2).map Prod.fst = b.1 :: l2.map Prod.fst := rfl
    rw [hr, hl, List.mem_cons, List.exists_mem_cons_iff]
    constructor
    · rintro (rfl | hk)
      · exact Or.inl h1
      · exact Or.inr (ih.mp hk)
    · rintro (he | he)
      · left
        exact (Option.some_inj.mp (h1.symm.trans he)).symm
      · exact Or.inr (ih.mpr he)

/-- With at least one 09:00 and one 15:00 match, the dict built by the
feature branch has exactly the `features_order` key set. -/
theorem d2_keys (resp : ForecastDay) (d1 : Dict) (gusts : List ℚ)
    (hph : processHours (dayDict resp, []) resp.hour = some (d1, gusts))
    (e9 : ∃ hh ∈ resp.hour, strptimeTime hh.time = some (9, 0))
    (e15 : ∃ hh ∈ resp.hour, strptimeTime hh.time = some (15, 0))
    (v1 v2 : Val) :
    (dictKeys (dictUpdate d1 [("max_gust", v1), ("rain_today", v2)])).Nodup ∧
    ∀ k, k ∈ dictKeys (dictUpdate d1 [("max_gust", v1), ("rain_today", v2)]) ↔
      k ∈ features_order := by
  have hnodday : (dictKeys (dayDict resp)).Nodup := by
    show (["maxtemp_c", "mintemp_c", "totalprecip_mm"] : List String).Nodup
    decide
  have hnod1 : (dictKeys d1).Nodup :=
    processHours_nodup resp.hour (dayDict resp, []) (d1, gusts) hph hnodday
  refine ⟨nodup_dictKeys_dictUpdate _ _ hnod1, ?_⟩
  intro k
  rw [mem_dictKeys_dictUpdate]
  have hm : k ∈ dictKeys d1 ↔ k ∈ dictKeys (dayDict resp)
      ∨ ((∃ hh ∈ resp.hour, strptimeTime hh.time = some (9, 0)) ∧
          k ∈ hour_feature_names.map (fun n => n ++ "09AM"))
      ∨ ((∃ hh ∈ resp.hour, strptimeTime hh.time = some (15, 0)) ∧
          k ∈ hour_feature_names.map (fun n => n ++ "03PM")) :=
    processHours_keys_mem resp.hour (dayDict resp, []) (d1, gusts) hph k
  rw [hm]
  have hday : dictKeys (dayDict resp) = ["maxtemp_c", "mintemp_c", "totalprecip_mm"] := rfl
  have h4 : List.map Prod.fst [("max_gust", v1), ("rain_today", v2)] =
      ["max_gust", "rain_today"] := rfl
  rw [hday, map09_eq, map03_eq, h4]
  simp only [e9, e15, true_and]
  constructor
  · rintro ((h | h | h) | h) <;> (fin_cases h <;> decide)
  · intro h
    simp only [features_order] at h
    fin_cases h <;> decide

/-- `displayTail` succeeds on a dict with the `features_order` key set
and produces the display key set, `text`/`icon` from the condition, and
a `"Yes"`/`"No"` `RainToday`. -/
theorem displayTail_char (resp : ForecastDay) (d2 : Dict)
    (hkeys : ∀ k, k ∈ dictKeys d2 ↔ k ∈ features_order) :
    ∃ d, displayTail resp d2 = some d ∧
      (dictKeys d).Nodup ∧ (∀ k, k ∈ dictKeys d ↔ k ∈ displayKeys) ∧
      dictGet d "text" = some (Val.str resp.day.condition_text) ∧
      dictGet d "icon" = some (Val.str resp.day.condition_icon) ∧
      (dictGet d "RainToday" = some (Val.str "Yes") ∨
        dictGet d "RainToday" = some (Val.str "No")) := by
  have hencsome : ∀ s ∈ features_order, (feature_names_encoder s).isSome := by decide
  have hall : ∀ p ∈ d2, (feature_names_encoder p.1).isSome := by
    intro p hp2
    have hmem : p.1 ∈ dictKeys d2 := List.mem_map_of_mem Prod.fst hp2
    exact hencsome p.1 ((hkeys p.1).mp hmem)
  obtain ⟨renamed, hmapm⟩ := Option.isSome_iff_exists.mp (mapM_rename_isSome d2 hall)
  have hfa := mapM_rename_forall d2 renamed hmapm
  have hrenmem : ∀ k, k ∈ renamed.map Prod.fst ↔ k ∈ displayNames := by
    intro k
    rw [forall2_keys_mem d2 renamed hfa k, ← exists_enc_iff k]
    constructor
    · rintro ⟨s, hs, he⟩
      exact ⟨s, (hkeys s).mp hs, he⟩
    · rintro ⟨s, hs, he⟩
      exact ⟨s, (hkeys s).mpr hs, he⟩
  have hbasemem : ∀ k, k ∈ dictKeys (dictUpdate [] renamed) ↔ k ∈ displayNames := by
    intro k
    rw [mem_dictKeys_dictUpdate, hrenmem k]
    simp [dictKeys]
  have hrtb : (dictGet (dictUpdate [] renamed) "RainToday").isSome := by
    rw [dictGet_isSome_iff]
    exact (hbasemem "RainToday").mpr (by decide)
  have hrt3 : dictGet (dictUpdate (dictUpdate [] renamed) (textIconKvs resp)) "RainToday"
      = dictGet (dictUpdate [] renamed) "RainToday" := by
    rw [dictGet_dictUpdate]
    rfl
  obtain ⟨rt, hrt⟩ := Option.isSome_iff_exists.mp hrtb
  have hv : dictGet (dictUpdate (dictUpdate [] renamed) (textIconKvs resp)) "RainToday"
      = some rt := by rw [hrt3, hrt]
  refine ⟨dictSet (dictUpdate (dictUpdate [] renamed) (textIconKvs resp)) "RainToday"
    (Val.str (if rt = Val.num 1 then "Yes" else "No")), ?_, ?_, ?_, ?_, ?_, ?_⟩
  · unfold displayTail
    rw [hmapm]
    simp only [Option.bind_eq_bind', Option.some_bind']
    rw [hv]
    simp only [Option.bind_eq_bind', Option.some_bind', Option.pure_def]
  · apply nodup_dictKeys_dictSet
    apply nodup_dictKeys_dictUpdate
    apply nodup_dictKeys_dictUpdate
    simp [dictKeys]
  · intro k
    rw [mem_dictKeys_dictSet, mem_dictKeys_dictUpdate, hbasemem k]
    have htikeys : (textIconKvs resp).map Prod.fst = ["text", "icon"] := rfl
    rw [htikeys]
    simp only [displayKeys, List.mem_append]
    constructor
    · rintro ((hd | ht) | rfl)
      · exact Or.inl hd
      · exact Or.inr ht
      · exact Or.inl (by decide)
    · rintro (hd | ht)
      · exact Or.inl (Or.inl hd)
      · exact Or.inl (Or.inr ht)
  · rw [dictGet_dictSet, if_neg (by decide), dictGet_dictUpdate]
    rfl
  · rw [dictGet_dictSet, if_neg (by decide), dictGet_dictUpdate]
    rfl
  · rw [dictGet_dictSet, if_pos rfl]
    by_cases hx : rt = Val.num 1
    · left
      rw [hx]
      rfl
    · right
      rw [if_neg hx]

/-- Under the success conditions, the display-variant parse reduces to
`displayTail` on the feature dict. -/
theorem parse_false_eq (resp : ForecastDay)
    (hp : ∀ hh ∈ resp.hour, (strptimeTime hh.time).isSome) (hne : resp.hour ≠ []) :
    ∃ d1 gusts mx, processHours (dayDict resp, []) resp.hour = some (d1, gusts) ∧
      listMax gusts = some mx ∧
      parse_history_response resp false = displayTail resp (dictUpdate d1
        [("max_gust", Val.num mx),
         ("rain_today", Val.num (if resp.day.totalprecip_mm > 0 then 1 else 0))]) := by
  have hps := processHours_isSome resp.hour (dayDict resp, []) hp
  obtain ⟨st, hst⟩ := Option.isSome_iff_exists.mp hps
  obtain ⟨d1, gusts⟩ := st
  have hg : gusts = resp.hour.map HourEntry.gust_kph := by
    have := processHours_snd resp.hour _ _ hst
    simpa using this
  have hgne : gusts ≠ [] := by
    rw [hg]
    simpa using hne
  obtain ⟨mx, hmx⟩ : ∃ mx, listMax gusts = some mx := by
    cases gusts with
    | nil => exact absurd rfl hgne
    | cons a as => exact ⟨_, rfl⟩
  have hpre : dictGet d1 "totalprecip_mm" = some (Val.num resp.day.totalprecip_mm) := by
    have hpp := processHours_get_preserve resp.hour (dayDict resp, [])
      (d1, gusts) hst "totalprecip_mm" (by decide)
    rw [hpp]
    exact dictGet_dayDict_totalprecip resp
  have htp := (getNum_eq_some_iff d1 "totalprecip_mm" resp.day.totalprecip_mm).mpr hpre
  refine ⟨d1, gusts, mx, hst, hmx, ?_⟩
  unfold parse_history_response
  rw [hst]
  simp only [Option.bind_eq_bind', Option.some_bind']
  rw [hmx]
  simp only [Option.bind_eq_bind', Option.some_bind']
  rw [htp]
  simp only [Option.bind_eq_bind', Option.some_bind', Bool.false_eq_true, if_false]

/-! ### Claim C2 -/

/-- C2: on a single-day history response whose timestamps all parse and
whose hourly series has exactly one 09:00 entry and exactly one 15:00
entry, the feature-variant parse succeeds with exactly the 17
`features_order` keys, and the display-variant parse succeeds with
exactly the display key set, `text`/`icon` taken from `day.condition`,
and `RainToday` equal to `"Yes"` or `"No"`. -/
theorem C2_key_sets (resp : ForecastDay)
    (hp : ∀ hh ∈ resp.hour, (strptimeTime hh.time).isSome)
    (h9 : resp.hour.countP (fun hh => decide (strptimeTime hh.time = some (9, 0))) = 1)
    (h15 : resp.hour.countP (fun hh => decide (strptimeTime hh.time = some (15, 0))) = 1) :
    (parse_history_response resp true).isSome ∧
    (∀ d, parse_history_response resp true = some d →
      (dictKeys d).Nodup ∧ ∀ k, k ∈ dictKeys d ↔ k ∈ features_order) ∧
    (parse_history_response resp false).isSome ∧
    (∀ d, parse_history_response resp false = some d →
      (dictKeys d).Nodup ∧ (∀ k, k ∈ dictKeys d ↔ k ∈ displayKeys) ∧
      dictGet d "text" = some (Val.str resp.day.condition_text) ∧
      dictGet d "icon" = some (Val.str resp.day.condition_icon) ∧
      (dictGet d "RainToday" = some (Val.str "Yes") ∨
        dictGet d "RainToday" = some (Val.str "No"))) := by
  have e9 : ∃ hh ∈ resp.hour, strptimeTime hh.time = some (9, 0) := by
    have hpos : 0 < resp.hour.countP
        (fun hh => decide (strptimeTime hh.time = some (9, 0))) := by
      rw [h9]
      exact Nat.one_pos
    obtain ⟨a, ha, hpa⟩ := List.countP_pos_iff.mp hpos
    exact ⟨a, ha, of_decide_eq_true hpa⟩
  have e15 : ∃ hh ∈ resp.hour, strptimeTime hh.time = some (15, 0) := by
    have hpos : 0 < resp.hour.countP
        (fun hh => decide (strptimeTime hh.time = some (15, 0))) := by
      rw [h15]
      exact Nat.one_pos
    obtain ⟨a, ha, hpa⟩ := List.countP_pos_iff.mp hpos
    exact ⟨a, ha, of_decide_eq_true hpa⟩
  have hne : resp.hour ≠ [] := by
    obtain ⟨a, ha, _⟩ := e9
    intro hnil
    rw [hnil] at ha
    exact List.not_mem_nil a ha
  refine ⟨parse_true_isSome resp hp hne, ?_, ?_, ?_⟩
  · intro d hd
    obtain ⟨d1, gusts, mx, hph, hmx, rfl⟩ := parse_true_some resp d hd
    exact d2_keys resp d1 gusts hph e9 e15 _ _
  · obtain ⟨d1, gusts, mx, hph, hmx, heq⟩ := parse_false_eq resp hp hne
    obtain ⟨dd, hdd, _⟩ := displayTail_char resp
      (dictUpdate d1
        [("max_gust", Val.num mx),
         ("rain_today", Val.num (if resp.day.totalprecip_mm > 0 then 1 else 0))])
      (d2_keys resp d1 gusts hph e9 e15 _ _).2
    rw [heq, hdd]
    rfl
  · intro d hd
    obtain ⟨d1, gusts, mx, hph, hmx, htail⟩ := parse_false_some resp d hd
    obtain ⟨dd, hdd, hrest⟩ := displayTail_char resp
      (dictUpdate d1
        [("max_gust", Val.num mx),
         ("rain_today", Val.num (if resp.day.totalprecip_mm > 0 then 1 else 0))])
      (d2_keys resp d1 gusts hph e9 e15 _ _).2
    have hddd : dd = d := by
      rw [hdd] at htail
      exact Option.some_inj.mp htail
    exact hddd ▸ hrest

def hourW15 : HourEntry := ⟨"2024-05-03 15:00", 40, 11, 1013, 17, "NE", 50, 75⟩

def fdC2 : ForecastDay := ⟨⟨21, 11, 3, "Patchy rain", "icon.png"⟩, [hourW09, hourW12, hourW15]⟩

theorem C2_key_sets_witness :
    (∀ hh ∈ fdC2.hour, (strptimeTime hh.time).isSome) ∧
    fdC2.hour.countP (fun hh => decide (strptimeTime hh.time = some (9, 0))) = 1 ∧
    fdC2.hour.countP (fun hh => decide (strptimeTime hh.time = some (15, 0))) = 1 ∧
    (parse_history_response fdC2 true).isSome ∧
    (parse_history_response fdC2 false).isSome := by
  refine ⟨by decide, by decide, by decide, ?_, ?_⟩
  · exact (C2_key_sets fdC2 (by decide) (by decide) (by decide)).1
  · exact (C2_key_sets fdC2 (by decide) (by decide) (by decide)).2.2.1

/-! ### Shape of a successful `formated_weather_data` -/

theorem dictKeys_dictSet_mem (d : Dict) (k : String) (v : Val)
    (h : k ∈ dictKeys d) : dictKeys (dictSet d k v) = dictKeys d := by
  rw [dictKeys_dictSet, if_pos h]

theorem dictKeys_dictUpdate_mem (kvs : List (String × Val)) (d : Dict)
    (h : ∀ k ∈ kvs.map Prod.fst, k ∈ dictKeys d) :
    dictKeys (dictUpdate d kvs) = dictKeys d := by
  induction kvs generalizing d with
  | nil => rfl
  | cons kv kvs ih =>
    have hk : kv.1 ∈ dictKeys d := h kv.1 (by simp)
    have hstep : dictKeys (dictSet d kv.1 kv.2) = dictKeys d :=
      dictKeys_dictSet_mem d kv.1 kv.2 hk
    have step : dictUpdate d (kv :: kvs) = dictUpdate (dictSet d kv.1 kv.2) kvs := rfl
    rw [step, ih (dictSet d kv.1 kv.2) ?_, hstep]
    intro k hmem
    rw [hstep]
    exact h k (List.mem_cons_of_mem _ hmem)

/-- Destructuring a successful `formatCommon`. -/
theorem formatCommon_some (data out : Dict) (h : formatCommon data = some out) :
    ∃ minT maxT rain gust w9 w3 p9 p3 t9 t3,
      getNum data "MinTemp" = some minT ∧ getNum data "MaxTemp" = some maxT ∧
      getNum data "Rainfall" = some rain ∧ getNum data "WindGustSpeed" = some gust ∧
      getNum data "WindSpeed9am" = some w9 ∧ getNum data "WindSpeed3pm" = some w3 ∧
      getNum data "Pressure9am" = some p9 ∧ getNum data "Pressure3pm" = some p3 ∧
      getNum data "Temp9am" = some t9 ∧ getNum data "Temp3pm" = some t3 ∧
      out = dictUpdate data (commonKvs minT maxT rain gust w9 w3 p9 p3 t9 t3) := by
  unfold formatCommon at h
  simp only [Option.bind_eq_bind', Option.bind_eq_some, Option.pure_def,
    Option.some.injEq] at h
  obtain ⟨minT, h1, maxT, h2, rain, h3, gust, h4, w9, h5, w3, h6, p9, h7,
    p3, h8, t9, h9a, t3, h10, hout⟩ := h
  exact ⟨minT, maxT, rain, gust, w9, w3, p9, p3, t9, t3,
    h1, h2, h3, h4, h5, h6, h7, h8, h9a, h10, hout.symm⟩

/-- Destructuring a successful `formated_weather_data`. -/
theorem formated_some (data : Dict) (fp : Bool) (out : Dict)
    (h : formated_weather_data data fp = some out) :
    ∃ r0 d1, getNum data "Rainfall" = some r0 ∧
      formatCommon (dictSet data "Rainfall" (Val.num (if r0 < 0 then 0 else r0))) = some d1 ∧
      ((fp = true ∧ ∃ rt, getNum d1 "RainToday" = some rt ∧
          out = dictSet d1 "RainToday" (Val.str (formatPercent0 rt))) ∨
       (fp = false ∧ ∃ h9 h3 c9 c3,
          getNum d1 "Humidity9am" = some h9 ∧ getNum d1 "Humidity3pm" = some h3 ∧
          getNum d1 "Cloud9am" = some c9 ∧ getNum d1 "Cloud3pm" = some c3 ∧
          (dictGet (dictUpdate d1 (humidityKvs h9 h3 c9 c3)) "text").isSome ∧
          (dictGet (dictDel (dictUpdate d1 (humidityKvs h9 h3 c9 c3)) "text") "icon").isSome ∧
          out = dictDel (dictDel (dictUpdate d1 (humidityKvs h9 h3 c9 c3)) "text") "icon")) := by
  cases fp with
  | true =>
    unfold formated_weather_data at h
    simp only [Option.bind_eq_bind', Option.bind_eq_some, Option.pure_def,
      Option.some.injEq, if_true] at h
    obtain ⟨r0, h1, d1, h2, rt, h3, hout⟩ := h
    exact ⟨r0, d1, h1, h2, Or.inl ⟨rfl, rt, h3, hout.symm⟩⟩
  | false =>
    unfold formated_weather_data at h
    simp only [Option.bind_eq_bind', Option.bind_eq_some, Option.pure_def,
      Option.some.injEq, Bool.false_eq_true, if_false] at h
    obtain ⟨r0, h1, d1, h2, h9v, hh9, h3v, hh3, c9v, hc9, c3v, hc3, htail⟩ := h
    cases htx : (dictGet (dictUpdate d1 (humidityKvs h9v h3v c9v c3v)) "text").isSome with
    | false => rw [htx] at htail; simp at htail
    | true =>
      cases hti : (dictGet (dictDel (dictUpdate d1 (humidityKvs h9v h3v c9v c3v)) "text")
          "icon").isSome with
      | false => rw [htx, hti] at htail; simp at htail
      | true =>
        rw [htx, hti] at htail
        simp only [if_true, Option.some.injEq] at htail
        exact ⟨r0, d1, h1, h2, Or.inr ⟨rfl, h9v, h3v, c9v, c3v,
          hh9, hh3, hc9, hc3, htx, hti, htail.symm⟩⟩

theorem getNum_dictSet_self (d : Dict) (k : String) (q : ℚ) :
    getNum (dictSet d k (Val.num q)) k = some q := by
  rw [getNum_eq_some_iff, dictGet_dictSet, if_pos rfl]

theorem dictGet_dictSet_ne (d : Dict) (k k' : String) (v : Val) (h : ¬k = k') :
    dictGet (dictSet d k' v) k = dictGet d k := by
  rw [dictGet_dictSet, if_neg h]

theorem getNum_dictSet_ne (d : Dict) (k k' : String) (v : Val) (h : ¬k = k') :
    getNum (dictSet d k' v) k = getNum d k := by
  unfold getNum
  rw [dictGet_dictSet_ne d k k' v h]

theorem dictGet_dictUpdate_none (kvs : List (String × Val)) (d : Dict) (k : String)
    (h : lastVal kvs k = none) : dictGet (dictUpdate d kvs) k = dictGet d k := by
  rw [dictGet_dictUpdate, h]

theorem getNum_dictUpdate_none (kvs : List (String × Val)) (d : Dict) (k : String)
    (h : lastVal kvs k = none) : getNum (dictUpdate d kvs) k = getNum d k := by
  unfold getNum
  rw [dictGet_dictUpdate_none kvs d k h]

theorem mem_dictKeys_of_getNum (d : Dict) (k : String) (q : ℚ)
    (h : getNum d k = some q) : k ∈ dictKeys d :=
  mem_dictKeys_of_dictGet d k (Val.num q) ((getNum_eq_some_iff d k q).mp h)

/-! ### Claim C5 -/

/-- C5: the formatted `Rainfall` is the rendering of the clamped value
`max(input, 0)`, so it is never the rendering of a negative quantity;
a negative input yields exactly the string `"0.00mm"`. -/
theorem C5_rainfall_clamped (data : Dict) (fp : Bool) (out : Dict) (r : ℚ)
    (hr : getNum data "Rainfall" = some r)
    (hout : formated_weather_data data fp = some out) :
    dictGet out "Rainfall" =
      some (Val.str (formatFixed (if r < 0 then 0 else r) 2 ++ "mm")) ∧
    (r < 0 → dictGet out "Rainfall" = some (Val.str "0.00mm")) := by
  obtain ⟨r0, d1, h1, h2, hbr⟩ := formated_some data fp out hout
  have hr0 : r0 = r := Option.some_inj.mp (h1.symm.trans hr)
  subst hr0
  obtain ⟨minT, maxT, rain, gust, w9, w3, p9, p3, t9, t3,
    g1, g2, g3, g4, g5, g6, g7, g8, g9, g10, hd1⟩ := formatCommon_some _ d1 h2
  have hrain : rain = if r0 < 0 then 0 else r0 :=
    Option.some_inj.mp (g3.symm.trans
      (getNum_dictSet_self data "Rainfall" (if r0 < 0 then 0 else r0)))
  have hd1rain : dictGet d1 "Rainfall" = some (Val.str (formatFixed rain 2 ++ "mm")) := by
    rw [hd1, dictGet_dictUpdate]
    rfl
  have hfin : dictGet out "Rainfall" = some (Val.str (formatFixed rain 2 ++ "mm")) := by
    rcases hbr with ⟨_, rt, hrt, rfl⟩ | ⟨_, h9v, h3v, c9v, c3v, _, _, _, _, _, _, rfl⟩
    · rw [dictGet_dictSet_ne _ _ _ _ (by decide), hd1rain]
    · rw [dictGet_dictDel, if_neg (by decide), dictGet_dictDel, if_neg (by decide),
        dictGet_dictUpdate_none (humidityKvs h9v h3v c9v c3v) d1 "Rainfall" rfl, hd1rain]
  constructor
  · rw [hfin, hrain]
  · intro hneg
    rw [hfin, hrain, if_pos hneg]
    decide

def recC5 : Dict :=
  [("MinTemp", Val.num 5), ("MaxTemp", Val.num 10), ("Rainfall", Val.num (mkRat (-1) 2)),
   ("WindGustSpeed", Val.num 20), ("WindSpeed9am", Val.num 10),
   ("WindSpeed3pm", Val.num 12), ("Pressure9am", Val.num 1010),
   ("Pressure3pm", Val.num 1008), ("Temp9am", Val.num 7), ("Temp3pm", Val.num 9),
   ("RainToday", Val.num (mkRat 1 2))]

theorem C5_rainfall_clamped_witness :
    getNum recC5 "Rainfall" = some (mkRat (-1) 2) ∧ (mkRat (-1) 2 < 0) ∧
    formated_weather_data recC5 true = some ((formated_weather_data recC5 true).getD []) ∧
    dictGet ((formated_weather_data recC5 true).getD []) "Rainfall" =
      some (Val.str "0.00mm") := by
  have h1 : getNum recC5 "Rainfall" = some (mkRat (-1) 2) := by decide
  have h2 : (mkRat (-1) 2 : ℚ) < 0 := by decide
  have h3 : formated_weather_data recC5 true =
      some ((formated_weather_data recC5 true).getD []) := by decide
  have h4 := (C5_rainfall_clamped recC5 true
    ((formated_weather_data recC5 true).getD []) (mkRat (-1) 2) h1 h3).2 h2
  exact ⟨h1, h2, h3, h4⟩

/-! ### Claim C7 -/

/-- C7: with `for_predict` the formatter replaces `RainToday` by the
0-decimal percentage rendering and adds no keys at all (so no humidity,
cloud or condition keys appear); without it, the humidity and cloud
fields are rendered as 0-decimal percent strings and the `text` and
`icon` keys are absent from the result. -/
theorem C7_format_branches (dataP outP dataD outD : Dict) (rt h9q h3q c9q c3q : ℚ)
    (hP : formated_weather_data dataP true = some outP)
    (hrt : getNum dataP "RainToday" = some rt)
    (hD : formated_weather_data dataD false = some outD)
    (hh9 : getNum dataD "Humidity9am" = some h9q)
    (hh3 : getNum dataD "Humidity3pm" = some h3q)
    (hc9 : getNum dataD "Cloud9am" = some c9q)
    (hc3 : getNum dataD "Cloud3pm" = some c3q) :
    dictGet outP "RainToday" = some (Val.str (formatPercent0 rt)) ∧
    dictKeys outP = dictKeys dataP ∧
    dictGet outD "Humidity9am" = some (Val.str (formatFixed h9q 0 ++ "%")) ∧
    dictGet outD "Humidity3pm" = some (Val.str (formatFixed h3q 0 ++ "%")) ∧
    dictGet outD "Cloud9am" = some (Val.str (formatFixed c9q 0 ++ "%")) ∧
    dictGet outD "Cloud3pm" = some (Val.str (formatFixed c3q 0 ++ "%")) ∧
    "text" ∉ dictKeys outD ∧ "icon" ∉ dictKeys outD := by
  obtain ⟨r0, d1, hr0, hfc, hbr⟩ := formated_some dataP true outP hP
  have hbr2 : ∃ rt', getNum d1 "RainToday" = some rt' ∧
      outP = dictSet d1 "RainToday" (Val.str (formatPercent0 rt')) := by
    rcases hbr with ⟨_, rt', ha, hb⟩ | ⟨hc, _⟩
    · exact ⟨rt', ha, hb⟩
    · exact absurd hc (by decide)
  obtain ⟨rt', hrt', houtP⟩ := hbr2
  obtain ⟨minT, maxT, rain, gust, w9, w3, p9, p3, t9, t3,
    g1, g2, g3, g4, g5, g6, g7, g8, g9, g10, hd1⟩ := formatCommon_some _ d1 hfc
  have hpres : getNum d1 "RainToday" = getNum dataP "RainToday" := by
    rw [hd1, getNum_dictUpdate_none (commonKvs minT maxT rain gust w9 w3 p9 p3 t9 t3)
      _ "RainToday" rfl, getNum_dictSet_ne _ _ _ _ (by decide)]
  have hrteq : rt' = rt := Option.some_inj.mp (hrt'.symm.trans (hpres.trans hrt))
  subst hrteq
  have hgetP : dictGet outP "RainToday" = some (Val.str (formatPercent0 rt')) := by
    rw [houtP, dictGet_dictSet, if_pos rfl]
  have hside : ∀ k ∈ (commonKvs minT maxT rain gust w9 w3 p9 p3 t9 t3).map Prod.fst,
      k ∈ dictKeys (dictSet dataP "Rainfall" (Val.num (if r0 < 0 then 0 else r0))) := by
    intro k hk
    have hckeys : (commonKvs minT maxT rain gust w9 w3 p9 p3 t9 t3).map Prod.fst =
        ["MinTemp", "MaxTemp", "Rainfall", "WindGustSpeed", "WindSpeed9am",
         "WindSpeed3pm", "Pressure9am", "Pressure3pm", "Temp9am", "Temp3pm"] := rfl
    rw [hckeys] at hk
    fin_cases hk
    · exact mem_dictKeys_of_getNum _ _ _ g1
    · exact mem_dictKeys_of_getNum _ _ _ g2
    · exact mem_dictKeys_of_getNum _ _ _ g3
    · exact mem_dictKeys_of_getNum _ _ _ g4
    · exact mem_dictKeys_of_getNum _ _ _ g5
    · exact mem_dictKeys_of_getNum _ _ _ g6
    · exact mem_dictKeys_of_getNum _ _ _ g7
    · exact mem_dictKeys_of_getNum _ _ _ g8
    · exact mem_dictKeys_of_getNum _ _ _ g9
    · exact mem_dictKeys_of_getNum _ _ _ g10
  have hk1 : dictKeys (dictSet dataP "Rainfall" (Val.num (if r0 < 0 then 0 else r0)))
      = dictKeys dataP :=
    dictKeys_dictSet_mem _ _ _ (mem_dictKeys_of_getNum _ _ _ hr0)
  have hk2 : dictKeys d1 = dictKeys dataP := by
    rw [hd1, dictKeys_dictUpdate_mem _ _ hside, hk1]
  have hk3 : dictKeys outP = dictKeys d1 := by
    rw [houtP]
    exact dictKeys_dictSet_mem _ _ _ (mem_dictKeys_of_getNum _ _ _ hrt')
  refine ⟨hgetP, hk3.trans hk2, ?_, ?_, ?_, ?_, ?_, ?_⟩ <;> clear hgetP hk3 hk2 hk1 hside
    <;> try clear hbr
  all_goals {
    obtain ⟨r0d, d1d, hr0d, hfcd, hbrd⟩ := formated_some dataD false outD hD
    have hbrd2 : ∃ h9v h3v c9v c3v,
        getNum d1d "Humidity9am" = some h9v ∧ getNum d1d "Humidity3pm" = some h3v ∧
        getNum d1d "Cloud9am" = some c9v ∧ getNum d1d "Cloud3pm" = some c3v ∧
        outD = dictDel (dictDel (dictUpdate d1d (humidityKvs h9v h3v c9v c3v)) "text")
          "icon" := by
      rcases hbrd with ⟨hc, _⟩ | ⟨_, h9v, h3v, c9v, c3v, a1, a2, a3, a4, _, _, a7⟩
      · exact absurd hc (by decide)
      · exact ⟨h9v, h3v, c9v, c3v, a1, a2, a3, a4, a7⟩
    obtain ⟨h9v, h3v, c9v, c3v, a1, a2, a3, a4, houtD⟩ := hbrd2
    obtain ⟨minTd, maxTd, raind, gustd, w9d, w3d, p9d, p3d, t9d, t3d,
      q1, q2, q3, q4, q5, q6, q7, q8, q9, q10, hd1d⟩ := formatCommon_some _ d1d hfcd
    have hpresk : ∀ kk : String, ¬kk = "Rainfall" →
        lastVal (commonKvs minTd maxTd raind gustd w9d w3d p9d p3d t9d t3d) kk = none →
        getNum d1d kk = getNum dataD kk := by
      intro kk hkk hlv
      rw [hd1d, getNum_dictUpdate_none _ _ _ hlv, getNum_dictSet_ne _ _ _ _ hkk]
    have e1 : h9v = h9q := Option.some_inj.mp
      (a1.symm.trans ((hpresk "Humidity9am" (by decide) rfl).trans hh9))
    have e2 : h3v = h3q := Option.some_inj.mp
      (a2.symm.trans ((hpresk "Humidity3pm" (by decide) rfl).trans hh3))
    have e3 : c9v = c9q := Option.some_inj.mp
      (a3.symm.trans ((hpresk "Cloud9am" (by decide) rfl).trans hc9))
    have e4 : c3v = c3q := Option.some_inj.mp
      (a4.symm.trans ((hpresk "Cloud3pm" (by decide) rfl).trans hc3))
    subst e1 e2 e3 e4
    rw [houtD]
    first
      | (rw [dictGet_dictDel, if_neg (by decide), dictGet_dictDel, if_neg (by decide),
          dictGet_dictUpdate]
         rfl)
      | (intro hmem
         rw [mem_dictKeys_dictDel, mem_dictKeys_dictDel] at hmem
         exact hmem.1.2 rfl)
      | (intro hmem
         rw [mem_dictKeys_dictDel] at hmem
         exact hmem.2 rfl)
  }

def recC7P : Dict :=
  [("MinTemp", Val.num 5), ("MaxTemp", Val.num 10), ("Rainfall", Val.num 2),
   ("WindGustSpeed", Val.num 20), ("WindSpeed9am", Val.num 10),
   ("WindSpeed3pm", Val.num 12), ("Pressure9am", Val.num 1010),
   ("Pressure3pm", Val.num 1008), ("Temp9am", Val.num 7), ("Temp3pm", Val.num 9),
   ("WindDir9am", Val.str "N"), ("WindDir3pm", Val.str "S"),
   ("RainToday", Val.num (mkRat 3 10))]

def recC7D : Dict :=
  [("MinTemp", Val.num 5), ("MaxTemp", Val.num 10), ("Rainfall", Val.num 2),
   ("WindGustSpeed", Val.num 20), ("WindSpeed9am", Val.num 10),
   ("WindSpeed3pm", Val.num 12), ("Pressure9am", Val.num 1010),
   ("Pressure3pm", Val.num 1008), ("Temp9am", Val.num 7), ("Temp3pm", Val.num 9),
   ("WindDir9am", Val.str "N"), ("WindDir3pm", Val.str "S"),
   ("RainToday", Val.str "Yes"),
   ("Humidity9am", Val.num 60), ("Humidity3pm", Val.num 55),
   ("Cloud9am", Val.num 25), ("Cloud3pm", Val.num 75),
   ("text", Val.str "Sunny"), ("icon", Val.str "i.png")]

theorem C7_format_branches_witness :
    formated_weather_data recC7P true = some ((formated_weather_data recC7P true).getD []) ∧
    getNum recC7P "RainToday" = some (mkRat 3 10) ∧
    formated_weather_data recC7D false = some ((formated_weather_data recC7D false).getD []) ∧
    dictGet ((formated_weather_data recC7P true).getD []) "RainToday" =
      some (Val.str "30%") ∧
    dictGet ((formated_weather_data recC7D false).getD []) "Humidity9am" =
      some (Val.str "60%") ∧
    "text" ∉ dictKeys ((formated_weather_data recC7D false).getD []) ∧
    "icon" ∉ dictKeys ((formated_weather_data recC7D false).getD []) := by
  have hP : formated_weather_data recC7P true =
      some ((formated_weather_data recC7P true).getD []) := by decide
  have hrt : getNum recC7P "RainToday" = some (mkRat 3 10) := by decide
  have hD : formated_weather_data recC7D false =
      some ((formated_weather_data recC7D false).getD []) := by decide
  have hh9 : getNum recC7D "Humidity9am" = some 60 := by decide
  have hh3 : getNum recC7D "Humidity3pm" = some 55 := by decide
  have hc9 : getNum recC7D "Cloud9am" = some 25 := by decide
  have hc3 : getNum recC7D "Cloud3pm" = some 75 := by decide
  have main := C7_format_branches recC7P ((formated_weather_data recC7P true).getD [])
    recC7D ((formated_weather_data recC7D false).getD []) (mkRat 3 10) 60 55 25 75
    hP hrt hD hh9 hh3 hc9 hc3
  exact ⟨hP, hrt, hD, main.1.trans (by decide), main.2.2.1.trans (by decide),
    main.2.2.2.2.2.2.1, main.2.2.2.2.2.2.2⟩

/-! ### Claim C9 -/

/-- The IEEE-754 double denoted by the Python literal `5.55`: the value
of `(5.55).as_integer_ratio()`, namely `6248744482976563 / 2^50`, which
is slightly below 5.55. -/
def pyFloat_5_55 : ℚ := mkRat 6248744482976563 1125899906842624

def recC9 : Dict :=
  [("MinTemp", Val.num pyFloat_5_55), ("MaxTemp", Val.num 10),
   ("Rainfall", Val.num 0), ("WindGustSpeed", Val.num 20),
   ("WindSpeed9am", Val.num 10), ("WindSpeed3pm", Val.num 12),
   ("Pressure9am", Val.num 1010), ("Pressure3pm", Val.num 1008),
   ("Temp9am", Val.num 7), ("Temp3pm", Val.num 9),
   ("RainToday", Val.num 0)]

/-- C9 counterexample: on the record whose `MinTemp` is the double
denoted by the literal `5.55`, the formatted `MinTemp` is `"5.5°C"`,
not `"5.6°C"` as the claim states — the double is below 5.55, so the
correctly rounded 1-decimal rendering rounds down. -/
theorem C9_five_five_counterexample :
    (formated_weather_data recC9 true).bind (fun d => dictGet d "MinTemp") =
      some (Val.str "5.5°C") ∧
    (formated_weather_data recC9 true).bind (fun d => dictGet d "MinTemp") ≠
      some (Val.str "5.6°C") := by
  constructor
  · decide
  · decide

/-- C9 amended: `formated_weather_data` renders temperatures with one
decimal; for the input record `{"MinTemp": 5.55}` (the literal denotes
the IEEE-754 double just below 5.55) the formatted output maps
`MinTemp` to the string `"5.5°C"`. -/
theorem C9_one_decimal_rounding :
    (formated_weather_data recC9 true).bind (fun d => dictGet d "MinTemp") =
      some (Val.str "5.5°C") := by decide

/-! ### Claim C1 -/

theorem checkStatus_none_of_2xx (c : ℕ) (h1 : 200 ≤ c) (h2 : c < 300) :
    checkStatus c = none := by
  unfold checkStatus
  rw [if_neg (by omega), if_neg (by omega)]

/-- The 7-day loop: when every remaining day has a 2xx status and a
projectable parse, the loop returns one projected row per day, in
chronological order. -/
theorem predictLoop_ok (histAt : ℤ → HttpResp ForecastDay) (start : ℤ) :
    ∀ n i : ℕ,
    (∀ j : ℕ, j < n →
      200 ≤ (histAt (start + (i + j : ℕ))).status ∧
      (histAt (start + (i + j : ℕ))).status < 300 ∧
      ((parse_history_response (histAt (start + (i + j : ℕ))).body true).bind
        projectRow).isSome) →
    ∃ rows, predictLoop histAt start i n = Except.ok rows ∧ rows.length = n ∧
      ∀ j : ℕ, j < n → rows[j]? =
        (parse_history_response (histAt (start + (i + j : ℕ))).body true).bind
          projectRow := by
  intro n
  induction n with
  | zero =>
    intro i hh
    exact ⟨[], rfl, rfl, fun j hj => absurd hj (Nat.not_lt_zero j)⟩
  | succ m ih =>
    intro i hh
    obtain ⟨hs1, hs2, hsome⟩ := hh 0 (Nat.succ_pos m)
    have hi0 : ((i + 0 : ℕ) : ℤ) = (i : ℤ) := by norm_num
    rw [hi0] at hs1 hs2 hsome
    have hcheck : checkStatus (histAt (start + i)).status = none :=
      checkStatus_none_of_2xx _ hs1 hs2
    obtain ⟨row, hrow⟩ := Option.isSome_iff_exists.mp hsome
    obtain ⟨d, hd, hproj⟩ := Option.bind_eq_some.mp hrow
    obtain ⟨rows, hloop, hlen, hget⟩ := ih (i + 1) (by
      intro j hj
      have hstep := hh (j + 1) (by omega)
      have hcast : ((i + (j + 1) : ℕ) : ℤ) = ((i + 1 + j : ℕ) : ℤ) := by
        push_cast
        ring
      rwa [hcast] at hstep)
    refine ⟨row :: rows, ?_, by simp [hlen], ?_⟩
    · show predictLoop histAt start i (m + 1) = Except.ok (row :: rows)
      unfold predictLoop
      simp only [hcheck, hd, hproj, hloop]
    · intro j hj
      cases j with
      | zero =>
        rw [List.getElem?_cons_zero, hi0]
        exact hrow.symm
      | succ jj =>
        have hj2 : jj < m := by omega
        have hjj := hget jj hj2
        have hcast : ((i + 1 + jj : ℕ) : ℤ) = ((i + (jj + 1) : ℕ) : ℤ) := by
          push_cast
          ring
        rw [hcast] at hjj
        simpa using hjj

/-- C1: when the current-conditions call succeeds (2xx) with country
"Australia" and all seven history calls succeed (2xx, parseable, and
projectable through `features_order`), `get_weather_data` with
`for_predict` returns a matrix of exactly 7 rows, row `i` being the
`features_order` projection of the day `today - 6 + i` (chronological,
oldest first, ending today), together with the date `today + 1`. -/
theorem C1_feature_matrix (cur : HttpResp CurrentBody)
    (histAt : ℤ → HttpResp ForecastDay) (now : ℤ)
    (hcs : 200 ≤ cur.status ∧ cur.status < 300)
    (hcountry : cur.body.country = "Australia")
    (hh : ∀ i : ℕ, i < 7 →
      200 ≤ (histAt (now - 6 + i)).status ∧ (histAt (now - 6 + i)).status < 300 ∧
      ((parse_history_response (histAt (now - 6 + i)).body true).bind
        projectRow).isSome) :
    ∃ rows, get_weather_data cur histAt now true =
        Except.ok (Payload.matrix rows, cur.body.name, cur.body.country, now + 1) ∧
      rows.length = 7 ∧
      ∀ i : ℕ, i < 7 → rows[i]? =
        (parse_history_response (histAt (now - 6 + i)).body true).bind projectRow := by
  obtain ⟨rows, hloop, hlen, hget⟩ := predictLoop_ok histAt (now - 6) 7 0 (by
    intro j hj
    have := hh j hj
    simpa using this)
  refine ⟨rows, ?_, hlen, fun i hi => by simpa using hget i hi⟩
  unfold get_weather_data
  rw [checkStatus_none_of_2xx cur.status hcs.1 hcs.2]
  simp only [parse_current_response, hcountry]
  rw [if_neg (by simp), hloop]
  simp

def curC1 : HttpResp CurrentBody := ⟨200, ⟨"Sydney", "Australia"⟩⟩

def fdC1 : ForecastDay := ⟨⟨21, 11, 3, "Sunny", "s.png"⟩, [hourW09, hourW15]⟩

def histC1 : ℤ → HttpResp ForecastDay := fun _ => ⟨200, fdC1⟩

theorem C1_feature_matrix_witness :
    (200 ≤ curC1.status ∧ curC1.status < 300) ∧
    curC1.body.country = "Australia" ∧
    (∀ i : ℕ, i < 7 →
      200 ≤ (histC1 ((0 : ℤ) - 6 + i)).status ∧
      (histC1 ((0 : ℤ) - 6 + i)).status < 300 ∧
      ((parse_history_response (histC1 ((0 : ℤ) - 6 + i)).body true).bind
        projectRow).isSome) ∧
    ∃ rows, get_weather_data curC1 histC1 0 true =
        Except.ok (Payload.matrix rows, curC1.body.name, curC1.body.country, 0 + 1) ∧
      rows.length = 7 ∧
      ∀ i : ℕ, i < 7 → rows[i]? =
        (parse_history_response (histC1 ((0 : ℤ) - 6 + i)).body true).bind projectRow := by
  refine ⟨by decide, by decide, by decide, ?_⟩
  exact C1_feature_matrix curC1 histC1 0 (by decide) (by decide) (by decide)

/-! ### Claim C4 -/

theorem checkStatus_eq_lnf_iff (c : ℕ) :
    checkStatus c = some GWErr.locationNotFound ↔ c = 400 := by
  unfold checkStatus
  by_cases h1 : c = 400
  · simp [h1]
  · rw [if_neg h1]
    by_cases h2 : 400 < c ∧ c < 600
    · rw [if_pos h2]
      constructor
      · intro hx
        injection hx with he
        exact GWErr.noConfusion he
      · intro hx
        exact absurd hx h1
    · rw [if_neg h2]
      constructor
      · intro hx
        exact Option.noConfusion hx
      · intro hx
        exact absurd hx h1

theorem checkStatus_none_iff (c : ℕ) :
    checkStatus c = none ↔ ¬c = 400 ∧ ¬(400 < c ∧ c < 600) := by
  unfold checkStatus
  by_cases h1 : c = 400
  · simp [h1]
  · by_cases h2 : 400 < c ∧ c < 600
    · simp [h1, h2]
    · simp [h1, h2]

/-- One history call counts as successful for the loop: a status the
code falls through, and a parse that projects through
`features_order`. -/
def dayOk (histAt : ℤ → HttpResp ForecastDay) (date : ℤ) : Prop :=
  checkStatus (histAt date).status = none ∧
  ((parse_history_response (histAt date).body true).bind projectRow).isSome

/-- The 7-day loop raises `LocationNotFoundError` exactly when some
day's call returns status 400 and every earlier day succeeded. -/
theorem predictLoop_lnf_iff (histAt : ℤ → HttpResp ForecastDay) (start : ℤ) :
    ∀ n i : ℕ,
    (predictLoop histAt start i n = Except.error GWErr.locationNotFound ↔
      ∃ j : ℕ, j < n ∧ (histAt (start + (i + j : ℕ))).status = 400 ∧
        ∀ jj : ℕ, jj < j → dayOk histAt (start + (i + jj : ℕ))) := by
  intro n
  induction n with
  | zero =>
    intro i
    constructor
    · intro h
      exact absurd h (by simp [predictLoop])
    · rintro ⟨j, hj, _⟩
      exact absurd hj (Nat.not_lt_zero j)
  | succ m ih =>
    intro i
    constructor
    · intro h
      unfold predictLoop at h
      cases hcs : checkStatus (histAt (start + i)).status with
      | some e =>
        simp only [hcs] at h
        have he : e = GWErr.locationNotFound := by injection h
        subst he
        refine ⟨0, Nat.succ_pos m, ?_, fun jj hjj => absurd hjj (Nat.not_lt_zero jj)⟩
        have h400 := (checkStatus_eq_lnf_iff _).mp hcs
        simpa using h400
      | none =>
        simp only [hcs] at h
        cases hp : parse_history_response (histAt (start + i)).body true with
        | none =>
          simp only [hp] at h
          injection h with he
          exact GWErr.noConfusion he
        | some d =>
          simp only [hp] at h
          cases hpr : projectRow d with
          | none =>
            simp only [hpr] at h
            injection h with he
            exact GWErr.noConfusion he
          | some row =>
            simp only [hpr] at h
            cases hl : predictLoop histAt start (i + 1) m with
            | error e =>
              simp only [hl] at h
              have he : e = GWErr.locationNotFound := by injection h
              subst he
              obtain ⟨j, hj, hst, hok⟩ := (ih (i + 1)).mp hl
              refine ⟨j + 1, by omega, ?_, ?_⟩
              · have hcast : ((i + 1 + j : ℕ) : ℤ) = ((i + (j + 1) : ℕ) : ℤ) := by
                  push_cast
                  ring
                rwa [hcast] at hst
              · intro jj hjj
                cases jj with
                | zero =>
                  constructor
                  · simpa using hcs
                  · have hbind : (parse_history_response (histAt (start + (i : ℕ))).body
                        true).bind projectRow = some row := by
                      rw [hp]
                      simpa using hpr
                    have : ((i + 0 : ℕ) : ℤ) = ((i : ℕ) : ℤ) := by norm_num
                    rw [this, hbind]
                    rfl
                | succ kk =>
                  have hkk : kk < j := by omega
                  have hday := hok kk hkk
                  have hcast : ((i + 1 + kk : ℕ) : ℤ) = ((i + (kk + 1) : ℕ) : ℤ) := by
                    push_cast
                    ring
                  rwa [hcast] at hday
            | ok rows =>
              simp only [hl] at h
              exact Except.noConfusion h
    · rintro ⟨j, hj, hst, hok⟩
      unfold predictLoop
      cases j with
      | zero =>
        have hst' : (histAt (start + i)).status = 400 := by simpa using hst
        have hck : checkStatus (histAt (start + i)).status =
            some GWErr.locationNotFound := (checkStatus_eq_lnf_iff _).mpr hst'
        simp only [hck]
      | succ jj =>
        obtain ⟨hcs0, hsome0⟩ := hok 0 (Nat.succ_pos jj)
        have hcs0' : checkStatus (histAt (start + i)).status = none := by
          simpa using hcs0
        have hsome0' : ((parse_history_response (histAt (start + (i : ℕ))).body
            true).bind projectRow).isSome := by
          simpa using hsome0
        obtain ⟨row, hrow⟩ := Option.isSome_iff_exists.mp hsome0'
        obtain ⟨d, hd, hproj⟩ := Option.bind_eq_some.mp hrow
        have hrec : predictLoop histAt start (i + 1) m =
            Except.error GWErr.locationNotFound := by
          rw [ih (i + 1)]
          refine ⟨jj, by omega, ?_, ?_⟩
          · have hcast : ((i + (jj + 1) : ℕ) : ℤ) = ((i + 1 + jj : ℕ) : ℤ) := by
              push_cast
              ring
            rwa [hcast] at hst
          · intro kk hkk
            have hday := hok (kk + 1) (by omega)
            have hcast : ((i + (kk + 1) : ℕ) : ℤ) = ((i + 1 + kk : ℕ) : ℤ) := by
              push_cast
              ring
            rwa [hcast] at hday
        simp only [hcs0', hd, hproj, hrec]

/-- C4: `get_weather_data` raises `LocationNotFoundError` exactly when
the current call returns status 400, or the current call falls through
its status check but the country is not "Australia" (even though every
HTTP call so far succeeded), or, with the country gate passed, a history
call that the code reaches (all earlier days having succeeded) returns
status 400 — one call in the display path, up to seven in the
prediction path. -/
theorem C4_location_not_found (cur : HttpResp CurrentBody)
    (histAt : ℤ → HttpResp ForecastDay) (now : ℤ) (fp : Bool) :
    get_weather_data cur histAt now fp = Except.error GWErr.locationNotFound ↔
      cur.status = 400
      ∨ (checkStatus cur.status = none ∧ cur.body.country ≠ "Australia")
      ∨ (checkStatus cur.status = none ∧ cur.body.country = "Australia" ∧ fp = true ∧
          ∃ j : ℕ, j < 7 ∧ (histAt (now - 6 + j)).status = 400 ∧
            ∀ jj : ℕ, jj < j → dayOk histAt (now - 6 + jj))
      ∨ (checkStatus cur.status = none ∧ cur.body.country = "Australia" ∧ fp = false ∧
          (histAt now).status = 400) := by
  unfold get_weather_data
  cases hcs : checkStatus cur.status with
  | some e =>
    simp only [hcs]
    constructor
    · intro h
      have he : e = GWErr.locationNotFound := by injection h
      subst he
      exact Or.inl ((checkStatus_eq_lnf_iff _).mp hcs)
    · rintro (h400 | ⟨hn, _⟩ | ⟨hn, _⟩ | ⟨hn, _⟩)
      · have h2 := ((checkStatus_eq_lnf_iff cur.status).mpr h400).symm.trans hcs
        have he := Option.some_inj.mp h2
        rw [← he]
      · exact Option.noConfusion hn
      · exact Option.noConfusion hn
      · exact Option.noConfusion hn
  | none =>
    simp only [hcs, parse_current_response]
    have hne400 : ¬cur.status = 400 := ((checkStatus_none_iff _).mp hcs).1
    by_cases hctry : cur.body.country = "Australia"
    · rw [hctry, if_neg (by simp)]
      cases fp with
      | false =>
        simp only [Bool.not_false, if_true]
        cases hh : checkStatus (histAt now).status with
        | some e =>
          simp only [hh]
          constructor
          · intro h
            have he : e = GWErr.locationNotFound := by injection h
            subst he
            exact Or.inr (Or.inr (Or.inr
              ⟨trivial, trivial, trivial, (checkStatus_eq_lnf_iff _).mp hh⟩))
          · rintro (h400 | ⟨_, hc⟩ | ⟨_, _, hfp, _⟩ | ⟨_, _, _, h400h⟩)
            · exact absurd h400 hne400
            · exact absurd rfl hc
            · exact Bool.noConfusion hfp
            · have h2 := ((checkStatus_eq_lnf_iff _).mpr h400h).symm.trans hh
              have he := Option.some_inj.mp h2
              rw [← he]
        | none =>
          simp only [hh]
          have hne400h : ¬(histAt now).status = 400 := ((checkStatus_none_iff _).mp hh).1
          cases hp : parse_history_response (histAt now).body false with
          | none =>
            simp only [hp]
            constructor
            · intro h
              injection h with he
              exact GWErr.noConfusion he
            · rintro (h400 | ⟨_, hc⟩ | ⟨_, _, hfp, _⟩ | ⟨_, _, _, h400h⟩)
              · exact absurd h400 hne400
              · exact absurd rfl hc
              · exact Bool.noConfusion hfp
              · exact absurd h400h hne400h
          | some d =>
            simp only [hp]
            constructor
            · intro h
              exact Except.noConfusion h
            · rintro (h400 | ⟨_, hc⟩ | ⟨_, _, hfp, _⟩ | ⟨_, _, _, h400h⟩)
              · exact absurd h400 hne400
              · exact absurd rfl hc
              · exact Bool.noConfusion hfp
              · exact absurd h400h hne400h
      | true =>
        simp only [Bool.not_true, Bool.false_eq_true, if_false]
        cases hl : predictLoop histAt (now - 6) 0 7 with
        | error e =>
          simp only [hl]
          constructor
          · intro h
            have he : e = GWErr.locationNotFound := by injection h
            subst he
            obtain ⟨j, hj, hst, hok⟩ := (predictLoop_lnf_iff histAt (now - 6) 7 0).mp hl
            refine Or.inr (Or.inr (Or.inl ⟨trivial, trivial, trivial, j, hj, ?_, ?_⟩))
            · simpa using hst
            · intro jj hjj
              have := hok jj hjj
              simpa using this
          · rintro (h400 | ⟨_, hc⟩ | ⟨_, _, _, j, hj, hst, hok⟩ | ⟨_, _, hfp, _⟩)
            · exact absurd h400 hne400
            · exact absurd rfl hc
            · have hlnf : predictLoop histAt (now - 6) 0 7 =
                  Except.error GWErr.locationNotFound := by
                rw [predictLoop_lnf_iff histAt (now - 6) 7 0]
                refine ⟨j, hj, by simpa using hst, ?_⟩
                intro jj hjj
                have := hok jj hjj
                simpa using this
              have h2 := hl.symm.trans hlnf
              have he : e = GWErr.locationNotFound := by injection h2
              rw [he]
            · exact Bool.noConfusion hfp
        | ok rows =>
          simp only [hl]
          constructor
          · intro h
            exact Except.noConfusion h
          · rintro (h400 | ⟨_, hc⟩ | ⟨_, _, _, j, hj, hst, hok⟩ | ⟨_, _, hfp, _⟩)
            · exact absurd h400 hne400
            · exact absurd rfl hc
            · have hlnf : predictLoop histAt (now - 6) 0 7 =
                  Except.error GWErr.locationNotFound := by
                rw [predictLoop_lnf_iff histAt (now - 6) 7 0]
                refine ⟨j, hj, by simpa using hst, ?_⟩
                intro jj hjj
                have := hok jj hjj
                simpa using this
              rw [hlnf] at hl
              exact Except.noConfusion hl
            · exact Bool.noConfusion hfp
    · rw [if_pos (by simpa using hctry)]
      constructor
      · intro _
        exact Or.inr (Or.inl ⟨trivial, hctry⟩)
      · intro _
        rfl

/-! ### C8: handling of non-2xx, non-400 statuses -/

def cur301 : HttpResp CurrentBody := ⟨301, ⟨"Sydney", "Australia"⟩⟩

def fdC8 : ForecastDay := ⟨⟨21, 11, 3, "Sunny", "s.png"⟩, [hourW09, hourW15]⟩

def histC8 : ℤ → HttpResp ForecastDay := fun _ => ⟨200, fdC8⟩

def cur500 : HttpResp CurrentBody := ⟨500, ⟨"Sydney", "Australia"⟩⟩

def curC8 : HttpResp CurrentBody := ⟨200, ⟨"Sydney", "Australia"⟩⟩

def hist503 : ℤ → HttpResp ForecastDay := fun _ => ⟨503, fdC8⟩

def isOkB {α : Type} : Except GWErr α → Bool
  | Except.ok _ => true
  | Except.error _ => false

/-- C8 counterexample: a current-conditions response with HTTP status
301 is neither a 2xx success nor 400, yet `get_weather_data` raises
nothing for it — the code only checks `== 400` and `> 400` (where
`raise_for_status` is silent below 400), so a 3xx status falls through
and the call completes successfully. -/
theorem C8_redirect_continues :
    (¬(200 ≤ cur301.status ∧ cur301.status < 300)) ∧ cur301.status ≠ 400 ∧
    isOkB (get_weather_data cur301 histC8 0 false) = true := by
  refine ⟨by decide, by decide, by decide⟩

/-- C8 (amended): a status in 401..599 from the current endpoint, or —
when the current call passes the status and country checks in the
display path — from the history endpoint, surfaces as a generic
upstream failure (`raise_for_status`, not `LocationNotFoundError`).
Statuses below 400 that are not 2xx, and statuses of 600 and above,
are NOT surfaced: the code continues with the response. -/
theorem C8_generic_failure (cur : HttpResp CurrentBody)
    (histAt : ℤ → HttpResp ForecastDay) (now : ℤ) (fp : Bool) :
    (400 < cur.status → cur.status < 600 →
      get_weather_data cur histAt now fp =
        Except.error (GWErr.httpError cur.status)) ∧
    (checkStatus cur.status = none → cur.body.country = "Australia" →
      400 < (histAt now).status → (histAt now).status < 600 →
      get_weather_data cur histAt now false =
        Except.error (GWErr.httpError (histAt now).status)) := by
  constructor
  · intro h1 h2
    have hcs : checkStatus cur.status = some (GWErr.httpError cur.status) := by
      unfold checkStatus
      rw [if_neg (by omega), if_pos ⟨h1, h2⟩]
    unfold get_weather_data
    rw [hcs]
  · intro hcs hctry h1 h2
    have hh : checkStatus (histAt now).status =
        some (GWErr.httpError (histAt now).status) := by
      unfold checkStatus
      rw [if_neg (by omega), if_pos ⟨h1, h2⟩]
    unfold get_weather_data
    simp only [hcs, parse_current_response]
    rw [hctry, if_neg (by simp)]
    simp only [Bool.not_false, if_true]
    rw [hh]

theorem C8_generic_failure_witness :
    get_weather_data cur500 histC8 0 true = Except.error (GWErr.httpError 500) ∧
    get_weather_data curC8 hist503 0 false = Except.error (GWErr.httpError 503) := by
  constructor
  · exact (C8_generic_failure cur500 histC8 0 true).1 (by decide) (by decide)
  · exact (C8_generic_failure curC8 hist503 0 false).2 (by decide) rfl (by decide) (by decide)

end SkyView
